import Mathlib

/-!
Verification development for the BeraMap geometry-management core
(`src/frontend/assets/js`).  The JavaScript sources are shallowly embedded:

* `core/GeoManager.js` — identity-keyed geometry store with type indices,
  statistics, bounds cache and validation (`GeoState` and its operations);
* `managers/EventManager.js` — event dispatch with a bounded history
  (`EMState`, `trigger`, `triggerSequence`);
* `renderers/PolygonRenderer.js`, `renderers/LineRenderer.js` and the two
  `DrawingRenderer` variants inside `managers/GeoManager.js` — ring-closure
  test, length and approximate spherical area;
* `core/BeraMap.js` (`addGeometries`) — the orchestrator path that
  normalizes input, stores each feature and emits one aggregated event.

JavaScript numbers are modelled as exact rationals (`ℚ`) where the code
only compares and takes min/max, and as reals (`ℝ`) where trigonometry is
involved.  `Math.random`-based UUID generation is modelled by passing the
drawn token explicitly; object iteration order of JS objects is modelled by
insertion-ordered association lists.  External Leaflet drawables are opaque:
the store keeps only an optional handle, and renderer side effects on the
map surface are outside the embedded state.
-/


namespace Beratech

/-- Geometry kinds recognized by the store (`GeoManager._initialize`,
`core/GeoManager.js:63`). -/
inductive GType where
  | Point
  | LineString
  | Polygon
  | Circle
  | Drawing
deriving DecidableEq, Repr

/-- Listing of all geometry kinds, in the order of
`core/GeoManager.js:63`. -/
def GType.all : List GType := [.Point, .LineString, .Polygon, .Circle, .Drawing]

/-- Coordinate pair in GeoJSON order: longitude then latitude. -/
structure Coordinate where
  lng : ℚ
  lat : ℚ
deriving DecidableEq, Repr

/-- Shape of a `geometry.coordinates` array: a single pair (Point, Circle),
a list of pairs (LineString, Drawing) or a list of rings (Polygon). -/
inductive CoordData where
  | single (c : Coordinate)
  | line (cs : List Coordinate)
  | rings (rs : List (List Coordinate))
deriving DecidableEq, Repr

/-- Free-form key/value properties; store and renderers treat them as
opaque data. -/
def Props := List (String × String)
deriving DecidableEq, Repr

/-- Embedded `feature.geometry` object: `gtype = none` models a missing or
falsy `type`, `coordinates = none` models a missing or non-array
`coordinates`. -/
structure Geometry where
  gtype : Option String
  coordinates : Option CoordData
deriving DecidableEq, Repr

/-- Embedded GeoJSON feature object.  A `null` or non-object input is
modelled as `none` at use sites (`Option Feature`). -/
structure Feature where
  ftype : String
  geometry : Option Geometry
  properties : Option Props
deriving DecidableEq, Repr

/-- List of recognized geometry type names
(`core/GeoManager.js:674`). -/
def validTypes : List String := ["Point", "LineString", "Polygon", "Circle", "Drawing"]

/-- Parse of a geometry type name into the kind enumeration; succeeds
exactly on the five names of `validTypes`. -/
def parseGType (s : String) : Option GType :=
  if s = "Point" then some .Point
  else if s = "LineString" then some .LineString
  else if s = "Polygon" then some .Polygon
  else if s = "Circle" then some .Circle
  else if s = "Drawing" then some .Drawing
  else none

/-- Embedding of `GeoManager._validateFeature`
(`core/GeoManager.js:661-684`): the input must be an object (`some`), have
`type === 'Feature'`, a geometry with a recognized type name, and a
coordinates array. -/
def validateFeature : Option Feature → Bool
  | none => false
  | some f =>
    f.ftype = "Feature" &&
    (match f.geometry with
     | none => false
     | some g =>
       (match g.gtype with
        | none => false
        | some t => validTypes.contains t) &&
       g.coordinates.isSome)

/-- Per-record data stored by the manager (`core/GeoManager.js:102-112`).
`indexByUUID` of the source duplicates `geometries` entry for entry
(written at lines 116 and 402), so one insertion-ordered list models
both. -/
structure GeometryData where
  uuid : String
  feature : Feature
  gtype : GType
  leafletLayer : Option Nat
  style : Props
  metadata : Props
  createdAt : Nat
  updatedAt : Nat
  properties : Props
deriving DecidableEq, Repr

/-- Min/max bound components of the bounds cache; `none` models the
`Infinity` / `-Infinity` initial values that were never extended
(`core/GeoManager.js:608-611`). -/
structure BoundsE where
  minLat : Option ℚ
  minLng : Option ℚ
  maxLat : Option ℚ
  maxLng : Option ℚ
deriving DecidableEq, Repr

/-- Full state of a `GeoManager` instance (`core/GeoManager.js:34-56`). -/
structure GeoState where
  geometries : List GeometryData
  indexByType : GType → List String
  totalCount : ℤ
  countByType : GType → ℤ
  boundsCache : Option BoundsE
  boundsCacheDirty : Bool

/-- Initial state built by the constructor and `_initialize`
(`core/GeoManager.js:34-71`): empty storage, empty buckets and zero
counters for each of the five kinds. -/
def initGeoState : GeoState :=
  { geometries := []
    indexByType := fun _ => []
    totalCount := 0
    countByType := fun _ => 0
    boundsCache := none
    boundsCacheDirty := true }

/-- Lookup of `this.geometries[uuid]` on the association-list model. -/
def lookupGeom (st : GeoState) (uuid : String) : Option GeometryData :=
  st.geometries.find? (fun g => g.uuid = uuid)

/-- Embedding of `_addToTypeIndex` (`core/GeoManager.js:717-724`): push the
identity into the bucket of the kind unless already present. -/
def addToTypeIndex (idx : GType → List String) (ty : GType) (u : String) :
    GType → List String :=
  fun t => if t = ty then (if u ∈ idx ty then idx ty else idx ty ++ [u]) else idx t

/-- Embedding of `_removeFromTypeIndex` (`core/GeoManager.js:730-737`):
splice out the first occurrence of the identity, if any. -/
def removeFromTypeIndex (idx : GType → List String) (ty : GType) (u : String) :
    GType → List String :=
  fun t => if t = ty then (idx ty).erase u else idx t

/-- Pointwise adjustment of a per-kind counter
(`stats.countByType[T] += d`). -/
def bumpCount (c : GType → ℤ) (ty : GType) (d : ℤ) : GType → ℤ :=
  fun t => if t = ty then c t + d else c t

/-- Options argument of `addGeometry` / `updateGeometry`; only the fields
the store reads are modelled. -/
structure AddOptions where
  uuid : Option String := none
  style : Option Props := none
  metadata : Option Props := none

/-- Embedding of `GeoManager.updateGeometry`
(`core/GeoManager.js:266-303`): unknown identity or invalid feature is a
no-op returning `false`; a kind change moves the identity between buckets
and adjusts both counters; the record is replaced in place, preserving
`leafletLayer`, `style`, `metadata` and `createdAt`. -/
def updateGeometry (st : GeoState) (now : Nat) (uuid : String)
    (input : Option Feature) (_opts : AddOptions) : Bool × GeoState :=
  match lookupGeom st uuid with
  | none => (false, st)
  | some r =>
    if validateFeature input = false then (false, st)
    else
      match input with
      | none => (false, st)
      | some f =>
        match (f.geometry.bind (fun g => g.gtype)).bind parseGType with
        | none => (false, st)
        | some newTy =>
          let idx :=
            if r.gtype ≠ newTy then
              addToTypeIndex (removeFromTypeIndex st.indexByType r.gtype uuid) newTy uuid
            else st.indexByType
          let counts :=
            if r.gtype ≠ newTy then
              bumpCount (bumpCount st.countByType r.gtype (-1)) newTy 1
            else st.countByType
          let geoms := st.geometries.map (fun g =>
            if g.uuid = uuid then
              { g with feature := f, gtype := newTy,
                       properties := f.properties.getD [], updatedAt := now }
            else g)
          (true, { st with geometries := geoms, indexByType := idx,
                           countByType := counts, boundsCacheDirty := true })

/-- Embedding of `GeoManager.addGeometry` (`core/GeoManager.js:83-129`).
`drawn` is the token produced by `_generateUUID` for this call (the model
of the `Math.random` draw); `options.uuid` takes precedence.  A token that
matches an existing record routes to `_updateExistingGeometry`
(`core/GeoManager.js:369-372`), which updates and returns the token. -/
def addGeometry (st : GeoState) (now : Nat) (input : Option Feature)
    (opts : AddOptions) (drawn : String) : Option String × GeoState :=
  if validateFeature input = false then (none, st)
  else
    match input with
    | none => (none, st)
    | some f =>
      let uuid := opts.uuid.getD drawn
      match lookupGeom st uuid with
      | some _ => (some uuid, (updateGeometry st now uuid (some f) opts).2)
      | none =>
        match (f.geometry.bind (fun g => g.gtype)).bind parseGType with
        | none => (none, st)
        | some ty =>
          let gd : GeometryData :=
            { uuid := uuid, feature := f, gtype := ty, leafletLayer := none,
              style := opts.style.getD [], metadata := opts.metadata.getD [],
              createdAt := now, updatedAt := now,
              properties := f.properties.getD [] }
          (some uuid,
            { st with
              geometries := st.geometries ++ [gd]
              indexByType := addToTypeIndex st.indexByType ty uuid
              totalCount := st.totalCount + 1
              countByType := bumpCount st.countByType ty 1
              boundsCacheDirty := true })

/-- Embedding of `GeoManager.removeGeometry`
(`core/GeoManager.js:383-412`): unknown identity is a no-op returning
`false`; otherwise the record is purged from storage and its kind bucket,
and both counters decrease.  The Leaflet layer removal is an external
effect. -/
def removeGeometry (st : GeoState) (uuid : String) : Bool × GeoState :=
  match lookupGeom st uuid with
  | none => (false, st)
  | some r =>
    (true,
      { st with
        geometries := st.geometries.filter (fun g => ¬ g.uuid = uuid)
        indexByType := removeFromTypeIndex st.indexByType r.gtype uuid
        totalCount := st.totalCount - 1
        countByType := bumpCount st.countByType r.gtype (-1)
        boundsCacheDirty := true })

/-- Embedding of `GeoManager.clear` (`core/GeoManager.js:439-470`):
returns the previous total and resets storage, buckets and counters; the
bounds cache object itself is left in place but marked dirty. -/
def clear (st : GeoState) : ℤ × GeoState :=
  (st.totalCount,
    { st with
      geometries := []
      indexByType := fun _ => []
      totalCount := 0
      countByType := fun _ => 0
      boundsCacheDirty := true })

/-- Embedding of `GeoManager.getGeometriesByType`
(`core/GeoManager.js:209-212`): map the kind bucket through the storage
and drop missing entries. -/
def getGeometriesByType (st : GeoState) (ty : GType) : List GeometryData :=
  ((st.indexByType ty).map (lookupGeom st)).filterMap id

/-- Extension of a min bound by a new value; `min(Infinity, q) = q`. -/
def minE (o : Option ℚ) (q : ℚ) : Option ℚ :=
  some (match o with | none => q | some m => min m q)

/-- Extension of a max bound by a new value; `max(-Infinity, q) = q`. -/
def maxE (o : Option ℚ) (q : ℚ) : Option ℚ :=
  some (match o with | none => q | some m => max m q)

/-- One bounds-extension step by a coordinate pair
(`core/GeoManager.js:618-621`). -/
def extendCoord (b : BoundsE) (c : Coordinate) : BoundsE :=
  { minLng := minE b.minLng c.lng
    maxLng := maxE b.maxLng c.lng
    minLat := minE b.minLat c.lat
    maxLat := maxE b.maxLat c.lat }

/-- Contribution of one stored record to the bounds
(`core/GeoManager.js:613-637`): a Point contributes its single pair, a
LineString every pair, a Polygon its outer ring; every other kind (Circle,
Drawing) falls through the `if/else if` chain and contributes nothing. -/
def extendGeom (b : BoundsE) (g : GeometryData) : BoundsE :=
  match g.gtype, g.feature.geometry.bind (fun ge => ge.coordinates) with
  | .Point, some (.single c) => extendCoord b c
  | .LineString, some (.line cs) => cs.foldl extendCoord b
  | .Polygon, some (.rings (r0 :: _)) => r0.foldl extendCoord b
  | _, _ => b

/-- Fold of the bounds extension over the whole storage, in insertion
order (`Object.values(this.geometries).forEach`). -/
def computeBounds (l : List GeometryData) : BoundsE :=
  l.foldl extendGeom { minLat := none, minLng := none, maxLat := none, maxLng := none }

/-- Embedding of `GeoManager.calculateBounds`
(`core/GeoManager.js:599-649`): a clean cache is returned as is; an empty
store returns `none` without touching the cache; otherwise the box is
recomputed, cached and the dirty flag cleared. -/
def calculateBounds (st : GeoState) : Option BoundsE × GeoState :=
  if st.boundsCacheDirty = false ∧ st.boundsCache.isSome then (st.boundsCache, st)
  else if st.totalCount = 0 then (none, st)
  else
    let b := computeBounds st.geometries
    (some b, { st with boundsCache := some b, boundsCacheDirty := false })

/-- Decidable reading of the spec phrase "the box contains the coordinate
(lng, lat)": all four bounds are finite and the pair lies inside. -/
def BoundsE.containsPt (b : BoundsE) (lng lat : ℚ) : Bool :=
  match b.minLat, b.maxLat, b.minLng, b.maxLng with
  | some a, some b1, some c, some d => a ≤ lat ∧ lat ≤ b1 ∧ c ≤ lng ∧ lng ≤ d
  | _, _, _, _ => false

/-- One mutating store call, for reasoning about arbitrary operation
sequences. -/
inductive GeoOp where
  | add (now : Nat) (input : Option Feature) (opts : AddOptions) (drawn : String)
  | update (now : Nat) (uuid : String) (input : Option Feature) (opts : AddOptions)
  | remove (uuid : String)
  | clear

/-- State transition of a single store call. -/
def applyOp (st : GeoState) : GeoOp → GeoState
  | .add now input opts drawn => (addGeometry st now input opts drawn).2
  | .update now uuid input opts => (updateGeometry st now uuid input opts).2
  | .remove uuid => (removeGeometry st uuid).2
  | .clear => (clear st).2

/-- State after a whole sequence of store calls. -/
def applyOps (st : GeoState) (ops : List GeoOp) : GeoState :=
  ops.foldl applyOp st

/-! ### Well-formedness of the store

The inductive invariant tying storage, type indices and statistics
together; every mutating operation of `core/GeoManager.js` preserves it. -/

/-- Identity keys of the storage list, in insertion order. -/
def keysOf (l : List Beratech.GeometryData) : List String :=
  l.map (fun g => g.uuid)

/-- Inductive well-formedness invariant of a store state: keys are unique,
each kind bucket is duplicate-free and holds exactly the identities of the
records currently classified with that kind, and both statistics fields
agree with the underlying lists. -/
structure WF (st : GeoState) : Prop where
  nodupKeys : (keysOf st.geometries).Nodup
  nodupIdx : ∀ ty, (st.indexByType ty).Nodup
  idxMem : ∀ ty u, u ∈ st.indexByType ty ↔
    ∃ r ∈ st.geometries, r.uuid = u ∧ r.gtype = ty
  total : st.totalCount = (st.geometries.length : ℤ)
  counts : ∀ ty, st.countByType ty = ((st.indexByType ty).length : ℤ)

/-- Concrete malformed feature for the C7 witness: an object of type
`Feature` with no geometry at all. -/
def noGeomFeature : Feature := { ftype := "Feature", geometry := none, properties := none }

/-- Concrete valid Point feature for witnesses. -/
def simplePointFeature : Feature :=
  { ftype := "Feature",
    geometry := some { gtype := some "Point",
                       coordinates := some (.single { lng := 1, lat := 2 }) },
    properties := none }

/-- Store holding `simplePointFeature` under identity `a`. -/
def oneRecordStore : GeoState :=
  (addGeometry initGeoState 0 (some simplePointFeature) ⟨none, none, none⟩ "a").2

/-- The record stored under identity `a` in `oneRecordStore`. -/
def storedPointRecord : GeometryData :=
  { uuid := "a", feature := simplePointFeature, gtype := .Point,
    leafletLayer := none, style := [], metadata := [], createdAt := 0,
    updatedAt := 0, properties := [] }

/-- Geometry of Scenario A: Point at longitude -63.9039, latitude
-8.7619. -/
def pvPointGeometry : Geometry :=
  { gtype := some "Point", coordinates := some (.single { lng := -63.9039, lat := -8.7619 }) }

/-- Scenario A feature: the Point. -/
def portoVelhoPoint : Feature :=
  { ftype := "Feature", geometry := some pvPointGeometry, properties := none }

/-- Geometry of Scenario A: Circle at longitude -63.9000, latitude
-8.7600 (radius 500 m travels in the feature properties). -/
def pvCircleGeometry : Geometry :=
  { gtype := some "Circle", coordinates := some (.single { lng := -63.9, lat := -8.76 }) }

/-- Scenario A feature: the Circle. -/
def portoVelhoCircle : Feature :=
  { ftype := "Feature", geometry := some pvCircleGeometry,
    properties := some [("radius", "500")] }

/-- Store of Scenario A: the Point added first, then the Circle. -/
def scenarioStore : GeoState :=
  (addGeometry
    (addGeometry initGeoState 0 (some portoVelhoPoint) ⟨none, none, none⟩
      "uuid-1").2
    1 (some portoVelhoCircle) ⟨none, none, none⟩ "uuid-2").2

/-- The degenerate box at the Scenario A Point coordinate. -/
def pvPointBox : BoundsE :=
  { minLat := some (-8.7619), minLng := some (-63.9039),
    maxLat := some (-8.7619), maxLng := some (-63.9039) }

/-- The empty box (all components still at their infinities). -/
def emptyBox : BoundsE :=
  { minLat := none, minLng := none, maxLat := none, maxLng := none }

/-! ### EventManager (`managers/EventManager.js`)

The bus is modelled with an explicit monotone clock: each `trigger` call
receives the current time as a parameter (the model of `new Date()`), and
ISO timestamp strings are represented by these clock values, whose order
mirrors lexicographic ISO order. -/

/-- Free-form event payload, opaque to the bus. -/
def Payload := List (String × String)
deriving DecidableEq, Repr

/-- Event object after stamping (`EventManager.trigger`,
`managers/EventManager.js:139-142`): `Object.assign` copies the payload
and then overwrites `timestamp` and `eventName`, so the stamped fields
are separate from the payload here. -/
structure StampedEvent where
  payload : Payload
  timestamp : Nat
  eventName : String
deriving DecidableEq, Repr

/-- History entry (`EventManager._addToHistory`,
`managers/EventManager.js:453-463`). -/
structure EventRecord where
  eventName : String
  timestamp : Nat
  data : StampedEvent
deriving DecidableEq, Repr

/-- History-relevant state of an `EventManager`
(`managers/EventManager.js:33-34`). -/
structure EMState where
  eventHistory : List EventRecord
  maxHistorySize : Nat
deriving Repr

/-- Constructor state (`managers/EventManager.js:33-34`):
`options.maxHistorySize || 100`, so an absent or zero option falls back
to 100. -/
def initEMState (maxHistOpt : Option Nat) : EMState :=
  { eventHistory := []
    maxHistorySize := match maxHistOpt with
      | none => 100
      | some n => if n = 0 then 100 else n }

/-- Embedding of `_addToHistory` (`managers/EventManager.js:453-463`):
push the new entry, then shift the oldest out when the capacity is
exceeded. -/
def addToHistory (st : EMState) (now : Nat) (name : String)
    (d : StampedEvent) : EMState :=
  let h := st.eventHistory ++ [{ eventName := name, timestamp := now, data := d }]
  { st with eventHistory := if st.maxHistorySize < h.length then h.tail else h }

/-- Embedding of `trigger` (`managers/EventManager.js:133-150`): an empty
event name is rejected with `null`; otherwise the payload is stamped with
the timestamp and the event name, appended to history, and the stamped
event is delivered (the jQuery dispatch itself is the external
boundary). -/
def trigger (st : EMState) (now : Nat) (name : String) (p : Payload) :
    Option StampedEvent × EMState :=
  if name = "" then (none, st)
  else
    let ev : StampedEvent := { payload := p, timestamp := now, eventName := name }
    (some ev, addToHistory st now name ev)

/-- State after a list of `trigger` calls, each with its own time. -/
def triggerCalls (st : EMState) : List (Nat × String × Payload) → EMState
  | [] => st
  | (now, name, p) :: rest => triggerCalls (trigger st now name p).2 rest

/-- Embedding of `triggerSequence` (`managers/EventManager.js:158-180`):
`dispatchNext` dispatches the entry at the current index and schedules the
next one after the cooperative delay, resolving after the last entry.
The function returns the state at resolution time; `clock i` is the time
at which the dispatch of entry `i` runs. -/
def triggerSeqFrom (clock : Nat → Nat) (i : Nat) (st : EMState) :
    List (String × Payload) → EMState
  | [] => st
  | (name, p) :: rest =>
    triggerSeqFrom clock (i + 1) (trigger st (clock i) name p).2 rest

/-- Entry point of `triggerSequence`: dispatch starts at index 0. -/
def triggerSequence (st : EMState) (clock : Nat → Nat)
    (events : List (String × Payload)) : EMState :=
  triggerSeqFrom clock 0 st events

/-- History records produced by a sequence dispatch starting at index
`i`. -/
def stampSeq (clock : Nat → Nat) (i : Nat) :
    List (String × Payload) → List EventRecord
  | [] => []
  | (name, p) :: rest =>
    { eventName := name, timestamp := clock i,
      data := { payload := p, timestamp := clock i, eventName := name } } ::
      stampSeq clock (i + 1) rest

/-- Bus state after `calls` dispatches on a freshly constructed
manager. -/
def emAfter (opts : Option Nat) (calls : List (Nat × String × Payload)) : EMState :=
  triggerCalls (initEMState opts) calls

/-! ### Renderer geometry (`renderers/*.js`, `managers/GeoManager.js`)

Coordinates stay exact rationals (degrees); trigonometric results live in
`ℝ`.  `latLngs` lists are in Leaflet order `(lat, lng)`, produced from
GeoJSON `(lng, lat)` pairs by the renderers. -/

/-- Degrees to radians: `(deg * Math.PI) / 180`. -/
noncomputable def degToRad (q : ℚ) : ℝ := (q : ℝ) * Real.pi / 180

/-- Model of `Math.atan2 y x` via the complex argument (same quadrant
conventions, range `(-π, π]`). -/
noncomputable def atan2 (y x : ℝ) : ℝ := Complex.arg ⟨x, y⟩

/-- Consecutive-pair traversal `for i in [0, n-2]: (l[i], l[i+1])`. -/
def consecPairs {α : Type} (l : List α) : List (α × α) := l.zip l.tail

/-- Haversine great-circle distance with Earth radius 6,371,000 m
(`managers/GeoManager.js:2143-2156` and the renderers). -/
noncomputable def haversineDistance (p1 p2 : ℚ × ℚ) : ℝ :=
  let R : ℝ := 6371000
  let f1 := degToRad p1.1
  let f2 := degToRad p2.1
  let df := degToRad (p2.1 - p1.1)
  let dl := degToRad (p2.2 - p1.2)
  let a := Real.sin (df / 2) * Real.sin (df / 2) +
    Real.cos f1 * Real.cos f2 * Real.sin (dl / 2) * Real.sin (dl / 2)
  let c := 2 * atan2 (Real.sqrt a) (Real.sqrt (1 - a))
  R * c

namespace PolygonRenderer

/-- Embedding of `PolygonRenderer._calculateArea`
(`renderers/PolygonRenderer.js:205-224`): per consecutive pair, the term
`sin φ1 cos φ2 sin Δλ − sin φ2 cos φ1 sin Δλ`, then `|sum·R·R|/2`. -/
noncomputable def calculateArea (latLngs : List (ℚ × ℚ)) : ℝ :=
  let R : ℝ := 6371000
  let s := ((consecPairs latLngs).map (fun pq =>
    Real.sin (degToRad pq.1.1) * Real.cos (degToRad pq.2.1) *
        Real.sin (degToRad (pq.2.2 - pq.1.2)) -
      Real.sin (degToRad pq.2.1) * Real.cos (degToRad pq.1.1) *
        Real.sin (degToRad (pq.2.2 - pq.1.2)))).sum
  |s * R * R| / 2

end PolygonRenderer

namespace LineRenderer

/-- Embedding of `LineRenderer._isClosedLine`
(`renderers/LineRenderer.js:557-567`): note the guard is
`latLngs.length < 2`, not `< 3`, with the fixed literal tolerance
0.00001°. -/
def isClosedLine (latLngs : List (ℚ × ℚ)) : Bool :=
  match latLngs with
  | [] => false
  | f :: rest =>
    if (f :: rest).length < 2 then false
    else
      let l := (f :: rest).getLast (List.cons_ne_nil f rest)
      decide (|f.1 - l.1| < 0.00001) && decide (|f.2 - l.2| < 0.00001)

end LineRenderer

namespace DrawingRenderer

/-- Embedding of the module `DrawingRenderer._isClosedLine`
(`managers/GeoManager.js:1425-1436`): under three points is never closed;
otherwise both axis differences of first and last vertex must be below
the configured threshold (default 0.00001°,
`managers/GeoManager.js:1232`). -/
def isClosedLine (threshold : ℚ) (latLngs : List (ℚ × ℚ)) : Bool :=
  match latLngs with
  | [] => false
  | f :: rest =>
    if (f :: rest).length < 3 then false
    else
      let l := (f :: rest).getLast (List.cons_ne_nil f rest)
      decide (|f.1 - l.1| < threshold) && decide (|f.2 - l.2| < threshold)

/-- Embedding of `DrawingRenderer._calculateLength`
(`managers/GeoManager.js:1438-1446`). -/
noncomputable def calculateLength (latLngs : List (ℚ × ℚ)) : ℝ :=
  ((consecPairs latLngs).map (fun pq => haversineDistance pq.1 pq.2)).sum

/-- Embedding of `DrawingRenderer._calculateArea`
(`managers/GeoManager.js:1448-1467`), same formula as the Polygon
renderer. -/
noncomputable def calculateArea (latLngs : List (ℚ × ℚ)) : ℝ :=
  let R : ℝ := 6371000
  let s := ((consecPairs latLngs).map (fun pq =>
    Real.sin (degToRad pq.1.1) * Real.cos (degToRad pq.2.1) *
        Real.sin (degToRad (pq.2.2 - pq.1.2)) -
      Real.sin (degToRad pq.2.1) * Real.cos (degToRad pq.1.1) *
        Real.sin (degToRad (pq.2.2 - pq.1.2)))).sum
  |s * R * R| / 2

end DrawingRenderer

/-- Renderer metadata attached to a drawing layer by the module variant
(`managers/GeoManager.js:1297-1305`): open drawings carry `area = null`
and the tag `polyline`; closed ones a computed area and the tag
`polygon`. -/
structure DrawingMetadata where
  isClosed : Bool
  length : ℝ
  area : Option ℝ
  typeTag : String

/-- Metadata computation of the module `DrawingRenderer.render`
(`managers/GeoManager.js:1243-1315`): GeoJSON `(lng, lat)` coordinates
are swapped to `(lat, lng)`, classified by the ring-closure test on every
call, and measured.  The Leaflet layer construction and map-surface
effects are external. -/
noncomputable def DrawingRenderer.renderMetadata (threshold : ℚ) (coords : List (ℚ × ℚ)) :
    DrawingMetadata :=
  let latLngs := coords.map (fun c => (c.2, c.1))
  let isClosed := DrawingRenderer.isClosedLine threshold latLngs
  { isClosed := isClosed
    length := DrawingRenderer.calculateLength latLngs
    area := if isClosed then some (DrawingRenderer.calculateArea latLngs) else none
    typeTag := if isClosed then "polygon" else "polyline" }

namespace DrawingRendererUMD

/-- Embedding of the UMD `DrawingRenderer._isClosedLine`
(`managers/GeoManager.js:2084-2094`), identical to the module
variant. -/
def isClosedLine (threshold : ℚ) (latLngs : List (ℚ × ℚ)) : Bool :=
  match latLngs with
  | [] => false
  | f :: rest =>
    if (f :: rest).length < 3 then false
    else
      let l := (f :: rest).getLast (List.cons_ne_nil f rest)
      decide (|f.1 - l.1| < threshold) && decide (|f.2 - l.2| < threshold)

/-- Embedding of the UMD `DrawingRenderer._calculateLength`
(`managers/GeoManager.js:2100-2110`). -/
noncomputable def calculateLength (latLngs : List (ℚ × ℚ)) : ℝ :=
  ((consecPairs latLngs).map (fun pq => haversineDistance pq.1 pq.2)).sum

/-- Embedding of the UMD `DrawingRenderer._calculateArea`
(`managers/GeoManager.js:2116-2137`): zero for open or under-three-point
input, otherwise the mid-latitude formula
`cos((lat1+lat2)/2)·Δλ` accumulated cyclically over the ring without its
duplicated last vertex, then `|sum·R·R/2|`. -/
noncomputable def calculateArea (threshold : ℚ) (latLngs : List (ℚ × ℚ)) : ℝ :=
  if latLngs.length < 3 ∨ isClosedLine threshold latLngs = false then 0
  else
    let R : ℝ := 6371000
    let n := latLngs.length - 1
    let s := ((List.range n).map (fun i =>
      let p := latLngs.getD i (0, 0)
      let q := latLngs.getD ((i + 1) % n) (0, 0)
      Real.cos ((degToRad p.1 + degToRad q.1) / 2) * degToRad (q.2 - p.2))).sum
    |s * R * R / 2|

end DrawingRendererUMD

/-- Metadata attached by the UMD `DrawingRenderer.render`
(`managers/GeoManager.js:1747-1757`): open drawings carry `area = 0` and
the tag `open`. -/
structure DrawingMetadataU where
  isClosed : Bool
  length : ℝ
  area : ℝ
  vertices : Nat
  typeTag : String

/-- Metadata computation of the UMD `DrawingRenderer.render`
(`managers/GeoManager.js:1657-1772`): swaps coordinates, rejects lists
under two points (`null`), classifies with `autoDetectClosed` enabled by
default, and stores length, area (0 when open) and vertex count. -/
noncomputable def DrawingRendererUMD.renderMetadata (threshold : ℚ)
    (coords : List (ℚ × ℚ)) : Option DrawingMetadataU :=
  let latLngs := coords.map (fun c => (c.2, c.1))
  if latLngs.length < 2 then none
  else
    let isClosed := DrawingRendererUMD.isClosedLine threshold latLngs
    some { isClosed := isClosed
           length := DrawingRendererUMD.calculateLength latLngs
           area := if isClosed then DrawingRendererUMD.calculateArea threshold latLngs else 0
           vertices := latLngs.length
           typeTag := if isClosed then "closed" else "open" }

/-- Modelled from the spec (C4's asserted formula, for comparison with
the source): for every ring of vertices, the absolute value of the sum
over consecutive vertex pairs of `cos((lat_i+lat_{i+1})/2) · Δlng_i` (in
radians), scaled by `EarthRadius²/2`. -/
noncomputable def specAreaMidLatitude (latLngs : List (ℚ × ℚ)) : ℝ :=
  let R : ℝ := 6371000
  |((consecPairs latLngs).map (fun pq =>
    Real.cos ((degToRad pq.1.1 + degToRad pq.2.1) / 2) *
      degToRad (pq.2.2 - pq.1.2))).sum| * R * R / 2

/-- A closed test ring in GeoJSON order (lng, lat): equator/pole triangle
with coinciding endpoints. -/
def closedRingCoords : List (ℚ × ℚ) := [(0, 0), (0, 90), (90, 0), (0, 0)]

/-- The same coordinates with the last vertex moved 0.01° in longitude:
the endpoints now differ by 0.01°. -/
def openRingCoords : List (ℚ × ℚ) := [(0, 0), (0, 90), (90, 0), (1/100, 0)]

/-! ### BeraMap orchestrator (`core/BeraMap.js`, `addGeometries`)

Renderer dispatch inside the loop touches only the external map surface
and the stored layer handle; the identity list, store mutation through
`addGeometry` and the aggregated event are embedded exactly. -/

/-- Input shapes of `_normalizeFeatures` (`core/BeraMap.js:419-431`):
`null`/falsy input, an object with `type === 'FeatureCollection'` (whose
`features` may or may not be an array), an object with
`type === 'Feature'`, or anything else. -/
inductive GeoJson where
  | jnull
  | featureCollection (featuresArr : Option (List (Option Feature)))
  | feature (f : Feature)
  | other

/-- Embedding of `_normalizeFeatures` (`core/BeraMap.js:419-431`). -/
def normalizeFeatures : GeoJson → List (Option Feature)
  | .jnull => []
  | .featureCollection none => []
  | .featureCollection (some fs) => fs
  | .feature f => [some f]
  | .other => []

/-- Embedding of the `features.forEach` loop of `addGeometries`
(`core/BeraMap.js:122-131`): each feature is first stored (possibly
rejected with `null`), then `feature.geometry.type` is read — which
throws precisely when the feature is nullish or has no geometry,
aborting the loop with the mutations made so far — and the returned
identity is pushed unconditionally.  The flag is `true` when no entry
threw. -/
def addGeometriesLoop (now : Nat) (drawn : Nat → String) :
    Nat → GeoState → List (Option Feature) →
      Bool × List (Option String) × GeoState
  | _, st, [] => (true, [], st)
  | i, st, f :: rest =>
    match Option.bind f Feature.geometry with
    | none => (false, [], (addGeometry st now f ⟨none, none, none⟩ (drawn i)).2)
    | some _ =>
      ((addGeometriesLoop now drawn (i + 1)
          (addGeometry st now f ⟨none, none, none⟩ (drawn i)).2 rest).1,
        (addGeometry st now f ⟨none, none, none⟩ (drawn i)).1 ::
          (addGeometriesLoop now drawn (i + 1)
            (addGeometry st now f ⟨none, none, none⟩ (drawn i)).2 rest).2.1,
        (addGeometriesLoop now drawn (i + 1)
          (addGeometry st now f ⟨none, none, none⟩ (drawn i)).2 rest).2.2)

/-- Embedding of `BeraMap.addGeometries` (`core/BeraMap.js:107-147`): an
empty normalized list warns and returns `[]` without an event; a throw
inside the loop is caught and returns `[]` (mutations already performed
persist) without an event; otherwise the collected identity list is
returned and one aggregated `bera:geometryAdded` event carries the list
and its count. -/
def addGeometries (st : GeoState) (now : Nat) (geojson : GeoJson)
    (drawn : Nat → String) :
    List (Option String) × GeoState × Option (List (Option String) × Nat) :=
  let feats := normalizeFeatures geojson
  if feats.length = 0 then ([], st, none)
  else
    match addGeometriesLoop now drawn 0 st feats with
    | (true, uuids, st2) => (uuids, st2, some (uuids, uuids.length))
    | (false, _, st2) => ([], st2, none)

/-- Feature with a geometry object of an unrecognized kind: validation
rejects it, but reading `feature.geometry.type` does not throw. -/
def badTypeFeature : Feature :=
  { ftype := "Feature",
    geometry := some { gtype := some "MultiPoint",
                       coordinates := some (.single { lng := 0, lat := 0 }) },
    properties := none }

set_option allowUnsafeReducibility true in
attribute [semireducible] Rat.sub Rat.add Rat.mul Rat.inv Rat.ofScientific

/-- The freshly initialized store is well formed. -/
theorem WF_init : WF initGeoState := by
  constructor <;> simp [initGeoState, keysOf]

/-- Distinct-key storage lists determine records uniquely by identity. -/
theorem uuid_inj {l : List GeometryData} (h : (keysOf l).Nodup)
    {a b : GeometryData} (ha : a ∈ l) (hb : b ∈ l) (he : a.uuid = b.uuid) :
    a = b := by
  induction l with
  | nil => cases ha
  | cons g gs ih =>
    simp only [keysOf, List.map_cons, List.nodup_cons] at h
    rcases List.mem_cons.mp ha with rfl | ha2
    · rcases List.mem_cons.mp hb with rfl | hb2
      · rfl
      · exact absurd (he ▸ List.mem_map_of_mem (fun g => g.uuid) hb2) h.1
    · rcases List.mem_cons.mp hb with rfl | hb2
      · exact absurd (he ▸ List.mem_map_of_mem (fun g => g.uuid) ha2) h.1
      · exact ih h.2 ha2 hb2

/-- Characterization of a failed storage lookup. -/
theorem lookupGeom_eq_none_iff (st : GeoState) (u : String) :
    lookupGeom st u = none ↔ ∀ r ∈ st.geometries, r.uuid ≠ u := by
  simp [lookupGeom, List.find?_eq_none]

/-- Data recovered from a successful storage lookup. -/
theorem lookupGeom_eq_some (st : GeoState) (u : String) (r : GeometryData)
    (h : lookupGeom st u = some r) : r ∈ st.geometries ∧ r.uuid = u := by
  refine ⟨List.mem_of_find?_eq_some h, ?_⟩
  have := List.find?_some h
  simpa using this

/-- Membership makes the storage lookup succeed. -/
theorem lookupGeom_isSome (st : GeoState) (u : String)
    (h : ∃ r ∈ st.geometries, r.uuid = u) : (lookupGeom st u).isSome := by
  rw [lookupGeom, List.find?_isSome]
  obtain ⟨r, hr, he⟩ := h
  exact ⟨r, hr, by simpa using he⟩

/-- Membership in the storage after the in-place record replacement
performed by `updateGeometry`. -/
theorem mem_update_map (l : List GeometryData)
    (r : GeometryData) (hr : r ∈ l) (uuid : String) (hru : r.uuid = uuid)
    (f : Feature) (newTy : GType) (now : Nat) (t : GType) (u : String) :
    (∃ a ∈ l.map (fun g =>
        if g.uuid = uuid then
          { g with feature := f, gtype := newTy,
                   properties := f.properties.getD [], updatedAt := now }
        else g), a.uuid = u ∧ a.gtype = t) ↔
      ((u = uuid ∧ t = newTy) ∨ (¬ u = uuid ∧ ∃ g ∈ l, g.uuid = u ∧ g.gtype = t)) := by
  constructor
  · rintro ⟨a, ha, hau, hat⟩
    rcases List.mem_map.mp ha with ⟨g, hg, rfl⟩
    by_cases hgu : g.uuid = uuid
    · simp only [hgu, if_pos rfl] at hau hat ⊢
      exact Or.inl ⟨by simpa [hgu] using hau.symm ▸ rfl, by simpa using hat.symm⟩
    · simp only [if_neg hgu] at hau hat
      exact Or.inr ⟨by rw [← hau]; exact hgu, ⟨g, hg, hau, hat⟩⟩
  · rintro (⟨rfl, rfl⟩ | ⟨hu, g, hg, hgu, hgt⟩)
    · refine ⟨_, List.mem_map_of_mem _ hr, ?_⟩
      simp [hru]
    · refine ⟨_, List.mem_map_of_mem _ hg, ?_⟩
      have : ¬ g.uuid = uuid := fun hc => hu (hgu ▸ hc)
      simp [hgu, hu, hgt]

/-- Membership after a bucket push. -/
theorem mem_addToTypeIndex (idx : GType → List String) (ty : GType) (u : String)
    (t : GType) (x : String) :
    x ∈ addToTypeIndex idx ty u t ↔ (x ∈ idx t ∨ (t = ty ∧ x = u)) := by
  unfold addToTypeIndex
  by_cases h : t = ty
  · subst h
    by_cases hm : u ∈ idx t
    · rw [if_pos rfl, if_pos hm]
      constructor
      · exact fun hx => Or.inl hx
      · rintro (hx | ⟨-, rfl⟩)
        · exact hx
        · exact hm
    · rw [if_pos rfl, if_neg hm]
      simp only [List.mem_append, List.mem_singleton]
      tauto
  · simp [h]

/-- Bucket pushes keep buckets duplicate-free. -/
theorem nodup_addToTypeIndex (idx : GType → List String) (ty : GType) (u : String)
    (h : ∀ t, (idx t).Nodup) (t : GType) : ((addToTypeIndex idx ty u) t).Nodup := by
  unfold addToTypeIndex
  by_cases ht : t = ty
  · subst ht
    by_cases hm : u ∈ idx t
    · simp [hm, h t]
    · rw [if_pos rfl, if_neg hm]
      simp [List.nodup_append, hm, h t]
  · simp [ht, h t]

/-- Length change of the touched bucket on a fresh push. -/
theorem length_addToTypeIndex_self (idx : GType → List String) (ty : GType)
    (u : String) (hm : u ∉ idx ty) :
    (addToTypeIndex idx ty u ty).length = (idx ty).length + 1 := by
  simp [addToTypeIndex, hm]

/-- Untouched buckets of a push. -/
theorem addToTypeIndex_other (idx : GType → List String) (ty : GType) (u : String)
    (t : GType) (ht : ¬ t = ty) : addToTypeIndex idx ty u t = idx t := by
  simp [addToTypeIndex, ht]

/-- Touched bucket of a splice. -/
theorem removeFromTypeIndex_self (idx : GType → List String) (ty : GType)
    (u : String) : removeFromTypeIndex idx ty u ty = (idx ty).erase u := by
  simp [removeFromTypeIndex]

/-- Untouched buckets of a splice. -/
theorem removeFromTypeIndex_other (idx : GType → List String) (ty : GType)
    (u : String) (t : GType) (ht : ¬ t = ty) :
    removeFromTypeIndex idx ty u t = idx t := by
  simp [removeFromTypeIndex, ht]

/-- Recognized type names parse to a kind. -/
theorem contains_parseGType (t : String) (h : validTypes.contains t = true) :
    (parseGType t).isSome := by
  have hc : t ∈ validTypes := by simpa using h
  simp only [validTypes, List.mem_cons, List.not_mem_nil, or_false] at hc
  rcases hc with rfl | rfl | rfl | rfl | rfl <;> simp [parseGType]

/-- Decomposition of a validated feature
(`core/GeoManager.js:661-684`). -/
theorem validate_elim (f : Feature) (hv : validateFeature (some f) = true) :
    ∃ g t ty, f.geometry = some g ∧ g.gtype = some t ∧ parseGType t = some ty ∧
      f.ftype = "Feature" ∧ g.coordinates.isSome := by
  simp only [validateFeature] at hv
  cases hfg : f.geometry with
  | none => rw [hfg] at hv; simp at hv
  | some g =>
    rw [hfg] at hv
    simp only [Bool.and_eq_true, decide_eq_true_eq] at hv
    obtain ⟨hft, hv2⟩ := hv
    cases hgt : g.gtype with
    | none => rw [hgt] at hv2; simp at hv2
    | some t =>
      rw [hgt] at hv2
      simp only [Bool.and_eq_true] at hv2
      obtain ⟨ty, hty⟩ := Option.isSome_iff_exists.mp (contains_parseGType t hv2.1)
      exact ⟨g, t, ty, rfl, hgt, hty, hft, hv2.2⟩

/-- Preservation of well-formedness by `updateGeometry`
(`core/GeoManager.js:266-303`): the no-op branches keep the state, and the
replacement branch moves the identity between buckets exactly when the
kind changes, keeping indices and statistics aligned. -/
theorem WF_update (st : GeoState) (now : Nat) (uuid : String)
    (input : Option Feature) (opts : AddOptions) (h : WF st) :
    WF (updateGeometry st now uuid input opts).2 := by
  unfold updateGeometry
  split
  · exact h
  · rename_i r hl
    split
    · exact h
    · rename_i hv
      split
      · exact h
      · rename_i f
        split
        · exact h
        · rename_i newTy hsc
          obtain ⟨hr, hru⟩ := lookupGeom_eq_some st uuid r hl
          have hkeys : keysOf (st.geometries.map (fun g =>
              if g.uuid = uuid then
                { g with feature := f, gtype := newTy,
                         properties := f.properties.getD [], updatedAt := now }
              else g)) = keysOf st.geometries := by
            unfold keysOf
            rw [List.map_map]
            apply List.map_congr_left
            intro a _
            by_cases ha : a.uuid = uuid <;> simp [ha]
          by_cases hty : r.gtype = newTy
          · refine ⟨?_, ?_, ?_, ?_, ?_⟩
            · show (keysOf (st.geometries.map _)).Nodup
              rw [hkeys]; exact h.nodupKeys
            · show ∀ ty2, ((if r.gtype ≠ newTy then
                  addToTypeIndex (removeFromTypeIndex st.indexByType r.gtype uuid)
                    newTy uuid else st.indexByType) ty2).Nodup
              rw [if_neg (fun hc => hc hty)]
              exact h.nodupIdx
            · show ∀ ty2 u, u ∈ (if r.gtype ≠ newTy then
                  addToTypeIndex (removeFromTypeIndex st.indexByType r.gtype uuid)
                    newTy uuid else st.indexByType) ty2 ↔ _
              rw [if_neg (fun hc => hc hty)]
              intro ty2 u
              rw [h.idxMem ty2 u,
                mem_update_map st.geometries r hr uuid hru f newTy now ty2 u]
              constructor
              · rintro ⟨g2, hg2, hg2u, hg2t⟩
                by_cases hu : u = uuid
                · have hg2r : g2 = r :=
                    uuid_inj h.nodupKeys hg2 hr (by rw [hg2u, hu, hru])
                  exact Or.inl ⟨hu, by rw [← hg2t, hg2r, hty]⟩
                · exact Or.inr ⟨hu, g2, hg2, hg2u, hg2t⟩
              · rintro (⟨rfl, rfl⟩ | ⟨hu, g2, hg2, hg2u, hg2t⟩)
                · exact ⟨r, hr, hru, hty⟩
                · exact ⟨g2, hg2, hg2u, hg2t⟩
            · show st.totalCount = ((st.geometries.map _).length : ℤ)
              rw [h.total]
              simp
            · show ∀ ty2, (if r.gtype ≠ newTy then
                  bumpCount (bumpCount st.countByType r.gtype (-1)) newTy 1
                  else st.countByType) ty2 = (((if r.gtype ≠ newTy then
                  addToTypeIndex (removeFromTypeIndex st.indexByType r.gtype uuid)
                    newTy uuid else st.indexByType) ty2).length : ℤ)
              rw [if_neg (fun hc => hc hty), if_neg (fun hc => hc hty)]
              exact h.counts
          · have huuid_old : uuid ∈ st.indexByType r.gtype :=
              (h.idxMem r.gtype uuid).mpr ⟨r, hr, hru, rfl⟩
            have huuid_new : uuid ∉ st.indexByType newTy := by
              intro hmem2
              obtain ⟨g2, hg2, hg2u, hg2t⟩ := (h.idxMem newTy uuid).mp hmem2
              have hg2r : g2 = r := uuid_inj h.nodupKeys hg2 hr (by rw [hg2u, hru])
              exact hty (by rw [← hg2r, hg2t])
            have hne2 : ¬ newTy = r.gtype := fun hc => hty hc.symm
            have hidx1_nodup : ∀ t2,
                ((removeFromTypeIndex st.indexByType r.gtype uuid) t2).Nodup := by
              intro t2
              by_cases ht2 : t2 = r.gtype
              · subst ht2
                rw [removeFromTypeIndex_self]
                exact (h.nodupIdx _).erase uuid
              · rw [removeFromTypeIndex_other _ _ _ _ ht2]
                exact h.nodupIdx t2
            have huuid_idx1new :
                uuid ∉ (removeFromTypeIndex st.indexByType r.gtype uuid) newTy := by
              rw [removeFromTypeIndex_other _ _ _ _ hne2]
              exact huuid_new
            refine ⟨?_, ?_, ?_, ?_, ?_⟩
            · show (keysOf (st.geometries.map _)).Nodup
              rw [hkeys]; exact h.nodupKeys
            · show ∀ ty2, ((if r.gtype ≠ newTy then
                  addToTypeIndex (removeFromTypeIndex st.indexByType r.gtype uuid)
                    newTy uuid else st.indexByType) ty2).Nodup
              rw [if_pos hty]
              exact nodup_addToTypeIndex _ newTy uuid hidx1_nodup
            · show ∀ ty2 u, u ∈ (if r.gtype ≠ newTy then
                  addToTypeIndex (removeFromTypeIndex st.indexByType r.gtype uuid)
                    newTy uuid else st.indexByType) ty2 ↔ _
              rw [if_pos hty]
              intro ty2 u
              rw [mem_update_map st.geometries r hr uuid hru f newTy now ty2 u,
                mem_addToTypeIndex]
              by_cases hu : u = uuid
              · subst hu
                constructor
                · rintro (h1 | ⟨rfl, -⟩)
                  · exfalso
                    by_cases ht2 : ty2 = r.gtype
                    · subst ht2
                      rw [removeFromTypeIndex_self] at h1
                      exact ((h.nodupIdx _).mem_erase_iff.mp h1).1 rfl
                    · rw [removeFromTypeIndex_other _ _ _ _ ht2] at h1
                      obtain ⟨g2, hg2, hg2u, hg2t⟩ := (h.idxMem ty2 u).mp h1
                      have hg2r : g2 = r :=
                        uuid_inj h.nodupKeys hg2 hr (by rw [hg2u, hru])
                      exact ht2 (by rw [← hg2t, hg2r])
                  · exact Or.inl ⟨rfl, rfl⟩
                · rintro (⟨-, rfl⟩ | ⟨hne, -⟩)
                  · exact Or.inr ⟨rfl, rfl⟩
                  · exact absurd rfl hne
              · have hmm : u ∈ (removeFromTypeIndex st.indexByType r.gtype uuid) ty2 ↔
                    u ∈ st.indexByType ty2 := by
                  by_cases ht2 : ty2 = r.gtype
                  · subst ht2
                    rw [removeFromTypeIndex_self,
                      (h.nodupIdx _).mem_erase_iff]
                    simp [hu]
                  · rw [removeFromTypeIndex_other _ _ _ _ ht2]
                rw [hmm, h.idxMem ty2 u]
                constructor
                · rintro (⟨g2, hg2, hg2u, hg2t⟩ | ⟨-, rfl⟩)
                  · exact Or.inr ⟨hu, g2, hg2, hg2u, hg2t⟩
                  · exact absurd rfl hu
                · rintro (⟨rfl, -⟩ | ⟨-, g2, hg2, hg2u, hg2t⟩)
                  · exact absurd rfl hu
                  · exact Or.inl ⟨g2, hg2, hg2u, hg2t⟩
            · show st.totalCount = ((st.geometries.map _).length : ℤ)
              rw [h.total]
              simp
            · show ∀ ty2, (if r.gtype ≠ newTy then
                  bumpCount (bumpCount st.countByType r.gtype (-1)) newTy 1
                  else st.countByType) ty2 = (((if r.gtype ≠ newTy then
                  addToTypeIndex (removeFromTypeIndex st.indexByType r.gtype uuid)
                    newTy uuid else st.indexByType) ty2).length : ℤ)
              rw [if_pos hty, if_pos hty]
              intro ty2
              by_cases h1 : ty2 = newTy
              · subst h1
                rw [length_addToTypeIndex_self _ _ _ huuid_idx1new,
                  removeFromTypeIndex_other _ _ _ _ hne2]
                have hcc := h.counts ty2
                simp only [bumpCount, eq_self_iff_true, if_true, if_neg hne2]
                push_cast
                omega
              · by_cases h2 : ty2 = r.gtype
                · subst h2
                  rw [addToTypeIndex_other _ _ _ _ (fun hc => h1 hc),
                    removeFromTypeIndex_self,
                    List.length_erase_of_mem huuid_old]
                  have hpos : 1 ≤ (st.indexByType r.gtype).length :=
                    List.length_pos.mpr (List.ne_nil_of_mem huuid_old)
                  have hcc := h.counts r.gtype
                  simp only [bumpCount, if_neg h1, eq_self_iff_true, if_true]
                  omega
                · rw [addToTypeIndex_other _ _ _ _ (fun hc => h1 hc),
                    removeFromTypeIndex_other _ _ _ _ (fun hc => h2 hc)]
                  have hcc := h.counts ty2
                  simp only [bumpCount, if_neg h1, if_neg h2]
                  omega

/-- Exactly one record is dropped when the storage is filtered by a key it
contains once. -/
theorem filter_ne_length (l : List GeometryData) (hkn : (keysOf l).Nodup)
    (r : GeometryData) (hr : r ∈ l) (uuid : String) (hru : r.uuid = uuid) :
    (l.filter (fun g => ¬ g.uuid = uuid)).length + 1 = l.length := by
  induction l with
  | nil => cases hr
  | cons g gs ih =>
    simp only [keysOf, List.map_cons, List.nodup_cons] at hkn
    by_cases hgu : g.uuid = uuid
    · have hgs : ∀ a ∈ gs, ¬ a.uuid = uuid := by
        intro a ha hc
        exact hkn.1 (by rw [hgu, ← hc]; exact List.mem_map_of_mem _ ha)
      rw [List.filter_cons_of_neg (by simpa using hgu)]
      rw [List.filter_eq_self.mpr (by simpa using hgs)]
      simp
    · rcases List.mem_cons.mp hr with rfl | hr2
      · exact absurd hru hgu
      · rw [List.filter_cons_of_pos (by simpa using hgu)]
        simp only [List.length_cons]
        rw [ih hkn.2 hr2]

/-- Preservation of well-formedness by `addGeometry`
(`core/GeoManager.js:83-129`): rejection and the implicit-update route
keep the invariant, and a fresh insert extends storage, bucket and both
counters together. -/
theorem WF_add (st : GeoState) (now : Nat) (input : Option Feature)
    (opts : AddOptions) (drawn : String) (h : WF st) :
    WF (addGeometry st now input opts drawn).2 := by
  unfold addGeometry
  split
  · exact h
  · rename_i hv
    cases input with
    | none => simp [validateFeature] at hv
    | some f =>
      show WF (match lookupGeom st (opts.uuid.getD drawn) with
        | some _ => (some (opts.uuid.getD drawn),
            (updateGeometry st now (opts.uuid.getD drawn) (some f) opts).2)
        | none => _).2
      split
      · exact WF_update st now (opts.uuid.getD drawn) (some f) opts h
      · rename_i hl
        split
        · exact h
        · rename_i ty hsc
          have hfresh : ∀ r ∈ st.geometries, r.uuid ≠ opts.uuid.getD drawn :=
            (lookupGeom_eq_none_iff st (opts.uuid.getD drawn)).mp hl
          have hnotkey : opts.uuid.getD drawn ∉ keysOf st.geometries := by
            intro hmem2
            obtain ⟨r, hr, hre⟩ := List.mem_map.mp hmem2
            exact hfresh r hr hre
          have hnotidx : ∀ t2, opts.uuid.getD drawn ∉ st.indexByType t2 := by
            intro t2 hmem2
            obtain ⟨r, hr, hre, -⟩ := (h.idxMem t2 _).mp hmem2
            exact hfresh r hr hre
          refine ⟨?_, ?_, ?_, ?_, ?_⟩
          · show (keysOf (st.geometries ++ [_])).Nodup
            unfold keysOf
            rw [List.map_append]
            rw [List.nodup_append]
            refine ⟨h.nodupKeys, by simp, ?_⟩
            intro x hx hy
            rw [List.map_cons, List.map_nil, List.mem_singleton] at hy
            subst hy
            exact hnotkey hx
          · exact nodup_addToTypeIndex _ ty _ h.nodupIdx
          · show ∀ t2 u, u ∈ addToTypeIndex st.indexByType ty (opts.uuid.getD drawn) t2 ↔ _
            intro t2 u
            rw [mem_addToTypeIndex]
            constructor
            · rintro (hmem2 | ⟨rfl, rfl⟩)
              · obtain ⟨r, hr, hre, hrt⟩ := (h.idxMem t2 u).mp hmem2
                exact ⟨r, List.mem_append_left _ hr, hre, hrt⟩
              · exact ⟨_, List.mem_append_right _ (List.mem_singleton_self _), rfl, rfl⟩
            · rintro ⟨r, hr, hre, hrt⟩
              rcases List.mem_append.mp hr with hr2 | hr2
              · exact Or.inl ((h.idxMem t2 u).mpr ⟨r, hr2, hre, hrt⟩)
              · rw [List.mem_singleton] at hr2
                subst hr2
                exact Or.inr ⟨hrt.symm, hre.symm⟩
          · show st.totalCount + 1 = ((st.geometries ++ [_]).length : ℤ)
            rw [h.total]
            simp
          · show ∀ t2, bumpCount st.countByType ty 1 t2 =
              ((addToTypeIndex st.indexByType ty (opts.uuid.getD drawn) t2).length : ℤ)
            intro t2
            by_cases ht2 : t2 = ty
            · subst ht2
              rw [length_addToTypeIndex_self _ _ _ (hnotidx t2)]
              have hcc := h.counts t2
              simp only [bumpCount, eq_self_iff_true, if_true]
              omega
            · rw [addToTypeIndex_other _ _ _ _ ht2]
              have hcc := h.counts t2
              simp only [bumpCount, if_neg ht2]
              omega

/-- Preservation of well-formedness by `removeGeometry`
(`core/GeoManager.js:383-412`). -/
theorem WF_remove (st : GeoState) (uuid : String) (h : WF st) :
    WF (removeGeometry st uuid).2 := by
  unfold removeGeometry
  split
  · exact h
  · rename_i r hl
    obtain ⟨hr, hru⟩ := lookupGeom_eq_some st uuid r hl
    have huuid_old : uuid ∈ st.indexByType r.gtype :=
      (h.idxMem r.gtype uuid).mpr ⟨r, hr, hru, rfl⟩
    refine ⟨?_, ?_, ?_, ?_, ?_⟩
    · show (keysOf (st.geometries.filter _)).Nodup
      exact List.Nodup.sublist
        (List.Sublist.map _ (List.filter_sublist _)) h.nodupKeys
    · show ∀ t2, ((removeFromTypeIndex st.indexByType r.gtype uuid) t2).Nodup
      intro t2
      by_cases ht2 : t2 = r.gtype
      · subst ht2
        rw [removeFromTypeIndex_self]
        exact (h.nodupIdx _).erase uuid
      · rw [removeFromTypeIndex_other _ _ _ _ ht2]
        exact h.nodupIdx t2
    · show ∀ t2 u, u ∈ (removeFromTypeIndex st.indexByType r.gtype uuid) t2 ↔
        ∃ g2 ∈ st.geometries.filter (fun g => ¬ g.uuid = uuid),
          g2.uuid = u ∧ g2.gtype = t2
      intro t2 u
      constructor
      · intro hmem2
        by_cases ht2 : t2 = r.gtype
        · subst ht2
          rw [removeFromTypeIndex_self] at hmem2
          obtain ⟨hne, hmem3⟩ := (h.nodupIdx _).mem_erase_iff.mp hmem2
          obtain ⟨g2, hg2, hg2u, hg2t⟩ := (h.idxMem _ u).mp hmem3
          refine ⟨g2, List.mem_filter.mpr ⟨hg2, ?_⟩, hg2u, hg2t⟩
          simp only [decide_eq_true_eq]
          intro hc
          exact hne (by rw [← hg2u, hc])
        · rw [removeFromTypeIndex_other _ _ _ _ ht2] at hmem2
          obtain ⟨g2, hg2, hg2u, hg2t⟩ := (h.idxMem t2 u).mp hmem2
          have hg2ne : ¬ g2.uuid = uuid := by
            intro hc
            have hg2r : g2 = r := uuid_inj h.nodupKeys hg2 hr (by rw [hc, hru])
            exact ht2 (by rw [← hg2t, hg2r])
          exact ⟨g2, List.mem_filter.mpr ⟨hg2, by simpa using hg2ne⟩, hg2u, hg2t⟩
      · rintro ⟨g2, hg2, hg2u, hg2t⟩
        obtain ⟨hg2m, hg2ne⟩ := List.mem_filter.mp hg2
        simp only [decide_eq_true_eq] at hg2ne
        have hmem3 : u ∈ st.indexByType t2 := (h.idxMem t2 u).mpr ⟨g2, hg2m, hg2u, hg2t⟩
        by_cases ht2 : t2 = r.gtype
        · subst ht2
          rw [removeFromTypeIndex_self, (h.nodupIdx _).mem_erase_iff]
          refine ⟨?_, hmem3⟩
          rintro rfl
          exact hg2ne hg2u
        · rw [removeFromTypeIndex_other _ _ _ _ ht2]
          exact hmem3
    · show st.totalCount - 1 =
        ((st.geometries.filter (fun g => ¬ g.uuid = uuid)).length : ℤ)
      rw [h.total]
      have hlen := filter_ne_length st.geometries h.nodupKeys r hr uuid hru
      omega
    · show ∀ t2, bumpCount st.countByType r.gtype (-1) t2 =
        (((removeFromTypeIndex st.indexByType r.gtype uuid) t2).length : ℤ)
      intro t2
      by_cases ht2 : t2 = r.gtype
      · subst ht2
        rw [removeFromTypeIndex_self, List.length_erase_of_mem huuid_old]
        have hpos : 1 ≤ (st.indexByType r.gtype).length :=
          List.length_pos.mpr (List.ne_nil_of_mem huuid_old)
        have hcc := h.counts r.gtype
        simp only [bumpCount, eq_self_iff_true, if_true]
        omega
      · rw [removeFromTypeIndex_other _ _ _ _ ht2]
        have hcc := h.counts t2
        simp only [bumpCount, if_neg ht2]
        omega

/-- Preservation of well-formedness by `clear`
(`core/GeoManager.js:439-470`). -/
theorem WF_clear (st : GeoState) : WF (clear st).2 := by
  constructor <;> simp [clear, keysOf]

/-- Well-formedness holds after any sequence of mutating store calls
started from the initial state. -/
theorem WF_applyOps (ops : List GeoOp) : WF (applyOps initGeoState ops) := by
  have hgen : ∀ (st : GeoState), WF st → WF (applyOps st ops) := by
    induction ops with
    | nil => exact fun st h => h
    | cons op rest ih =>
      intro st h
      cases op with
      | add now input opts drawn => exact ih _ (WF_add st now input opts drawn h)
      | update now uuid input opts => exact ih _ (WF_update st now uuid input opts h)
      | remove uuid => exact ih _ (WF_remove st uuid h)
      | clear => exact ih _ (WF_clear st)
  exact hgen initGeoState WF_init

/-- A list of defined optionals keeps its length under `filterMap id`. -/
theorem filterMap_id_length {α : Type} (l : List (Option α))
    (h : ∀ x ∈ l, x.isSome) : (l.filterMap id).length = l.length := by
  induction l with
  | nil => rfl
  | cons x xs ih =>
    cases x with
    | none => exact absurd (h none (List.mem_cons_self _ _)) (by simp)
    | some a =>
      simp only [List.filterMap_cons, id, List.length_cons]
      rw [ih (fun y hy => h y (List.mem_cons_of_mem _ hy))]

/-- Under well-formedness, `getGeometriesByType` returns one record per
bucket entry: no lookup fails. -/
theorem getGeometriesByType_length (st : GeoState) (h : WF st) (ty : GType) :
    ((getGeometriesByType st ty).length : ℤ) = st.countByType ty := by
  unfold getGeometriesByType
  rw [filterMap_id_length]
  · rw [List.length_map, h.counts ty]
  · intro x hx
    obtain ⟨u, hu, hxu⟩ := List.mem_map.mp hx
    obtain ⟨r, hrm, hru, -⟩ := (h.idxMem ty u).mp hu
    rw [← hxu]
    exact lookupGeom_isSome st u ⟨r, hrm, hru⟩

/-- Every record falls into exactly one kind, so the per-kind filters of
the storage partition it. -/
theorem sum_filter_lengths (l : List GeometryData) :
    (GType.all.map (fun ty => (l.filter (fun g => g.gtype = ty)).length)).sum
      = l.length := by
  induction l with
  | nil => simp [GType.all]
  | cons g gs ih =>
    simp only [GType.all, List.map_cons, List.map_nil, List.sum_cons,
      List.sum_nil, List.filter_cons] at ih ⊢
    cases hgt : g.gtype <;> simp [hgt] <;> omega

/-- Under well-formedness, each bucket has exactly as many entries as the
storage has records of that kind. -/
theorem bucket_length_eq_filter (st : GeoState) (h : WF st) (ty : GType) :
    (st.indexByType ty).length
      = (st.geometries.filter (fun g => g.gtype = ty)).length := by
  have hn1 : (st.indexByType ty).Nodup := h.nodupIdx ty
  have hn2 : ((st.geometries.filter (fun g => g.gtype = ty)).map
      (fun g => g.uuid)).Nodup :=
    List.Nodup.sublist (List.Sublist.map _ (List.filter_sublist _)) h.nodupKeys
  have hset : (st.indexByType ty).toFinset =
      ((st.geometries.filter (fun g => g.gtype = ty)).map (fun g => g.uuid)).toFinset := by
    ext u
    simp only [List.mem_toFinset, List.mem_map, List.mem_filter,
      decide_eq_true_eq]
    rw [h.idxMem ty u]
    constructor
    · rintro ⟨r, hr, hru, hrt⟩
      exact ⟨r, ⟨hr, hrt⟩, hru⟩
    · rintro ⟨r, ⟨hr, hrt⟩, hru⟩
      exact ⟨r, hr, hru, hrt⟩
  have hc1 := List.toFinset_card_of_nodup hn1
  have hc2 := List.toFinset_card_of_nodup hn2
  rw [← hc1, hset, hc2, List.length_map]

/-- Under well-formedness, the total equals the sum of the per-kind
counters. -/
theorem totalCount_eq_sum (st : GeoState) (h : WF st) :
    st.totalCount = (GType.all.map (fun ty => st.countByType ty)).sum := by
  have hcongr : GType.all.map (fun ty => st.countByType ty)
      = GType.all.map (fun ty =>
          ((st.geometries.filter (fun g => g.gtype = ty)).length : ℤ)) := by
    apply List.map_congr_left
    intro ty _
    rw [h.counts ty, bucket_length_eq_filter st h ty]
  rw [hcongr, h.total, ← sum_filter_lengths st.geometries]
  simp only [GType.all, List.map_cons, List.map_nil, List.sum_cons, List.sum_nil]
  push_cast
  ring

/-- C1.  For every sequence of add/update/remove/clear operations on the
store, the statistics stay consistent with the type indices:
`totalCount` equals the sum of `countByType` over all kinds, and for every
kind `T`, `countByType[T]` equals the number of records returned by
`getGeometriesByType(T)` (`core/GeoManager.js`). -/
theorem store_stats_consistent (ops : List GeoOp) :
    (applyOps initGeoState ops).totalCount
        = (GType.all.map (fun ty => (applyOps initGeoState ops).countByType ty)).sum ∧
      ∀ ty, (applyOps initGeoState ops).countByType ty
        = ((getGeometriesByType (applyOps initGeoState ops) ty).length : ℤ) := by
  have h := WF_applyOps ops
  exact ⟨totalCount_eq_sum _ h,
    fun ty => (getGeometriesByType_length _ h ty).symm⟩

/-- The update path never changes the total count or the number of stored
records (`core/GeoManager.js:266-303` touches only the per-kind
counters). -/
theorem updateGeometry_preserves (st : GeoState) (now : Nat) (uuid : String)
    (input : Option Feature) (opts : AddOptions) :
    (updateGeometry st now uuid input opts).2.totalCount = st.totalCount ∧
    (updateGeometry st now uuid input opts).2.geometries.length
      = st.geometries.length := by
  unfold updateGeometry
  split
  · exact ⟨rfl, rfl⟩
  · split
    · exact ⟨rfl, rfl⟩
    · split
      · exact ⟨rfl, rfl⟩
      · split
        · exact ⟨rfl, rfl⟩
        · exact ⟨rfl, by simp⟩

/-- A supplied identity matching an existing record routes `addGeometry`
to the update path (`core/GeoManager.js:93-97`). -/
theorem addGeometry_existing (st : GeoState) (now : Nat) (f : Feature)
    (opts : AddOptions) (drawn u : String) (r : GeometryData)
    (hval : validateFeature (some f) = true)
    (hgetD : opts.uuid.getD drawn = u) (hlu : lookupGeom st u = some r) :
    addGeometry st now (some f) opts drawn
      = (some u, (updateGeometry st now u (some f) opts).2) := by
  unfold addGeometry
  rw [if_neg (by rw [hval]; simp)]
  show (match lookupGeom st (opts.uuid.getD drawn) with
    | some _ => (some (opts.uuid.getD drawn),
        (updateGeometry st now (opts.uuid.getD drawn) (some f) opts).2)
    | none => _) = _
  rw [hgetD, hlu]

/-- A fresh identity inserts a new record with exactly the state change of
`core/GeoManager.js:99-128`. -/
theorem addGeometry_fresh_eq (st : GeoState) (now : Nat) (f : Feature)
    (opts : AddOptions) (drawn : String) (ty : GType)
    (hval : validateFeature (some f) = true)
    (hlu : lookupGeom st (opts.uuid.getD drawn) = none)
    (hsc : (f.geometry.bind (fun g => g.gtype)).bind parseGType = some ty) :
    addGeometry st now (some f) opts drawn
      = (some (opts.uuid.getD drawn),
         { st with
           geometries := st.geometries ++
             [{ uuid := opts.uuid.getD drawn, feature := f, gtype := ty,
                leafletLayer := none, style := opts.style.getD [],
                metadata := opts.metadata.getD [], createdAt := now,
                updatedAt := now, properties := f.properties.getD [] }],
           indexByType := addToTypeIndex st.indexByType ty (opts.uuid.getD drawn),
           totalCount := st.totalCount + 1,
           countByType := bumpCount st.countByType ty 1,
           boundsCacheDirty := true }) := by
  unfold addGeometry
  rw [if_neg (by rw [hval]; simp)]
  show (match lookupGeom st (opts.uuid.getD drawn) with
    | some _ => (some (opts.uuid.getD drawn),
        (updateGeometry st now (opts.uuid.getD drawn) (some f) opts).2)
    | none => _) = _
  rw [hlu, hsc]

/-- C7.  For every malformed feature (not an object, not of type
`Feature`, missing a geometry with a recognized kind, or missing a
coordinate array — exactly the failures of `_validateFeature`),
`addGeometry` returns `null` and `updateGeometry` returns `false`, the
store state is returned completely unchanged, and the embedded operations
are total, so no exception escapes
(`core/GeoManager.js:83-97, 266-275, 661-684`). -/
theorem invalid_feature_rejected (st : GeoState) (now : Nat)
    (input : Option Feature) (opts : AddOptions) (drawn uuid : String)
    (h : validateFeature input = false) :
    addGeometry st now input opts drawn = (none, st) ∧
    updateGeometry st now uuid input opts = (false, st) := by
  constructor
  · unfold addGeometry
    rw [if_pos h]
  · unfold updateGeometry
    split
    · rfl
    · rw [if_pos h]

/-- Witness for C7 at a concrete malformed feature (a `Feature` object
with no geometry): both operations reject it and leave the fresh store
untouched. -/
theorem invalid_feature_rejected_witness :
    validateFeature (some noGeomFeature) = false ∧
    addGeometry initGeoState 0 (some noGeomFeature) ⟨none, none, none⟩ "u"
      = (none, initGeoState) ∧
    updateGeometry initGeoState 0 "u" (some noGeomFeature) ⟨none, none, none⟩
      = (false, initGeoState) :=
  ⟨rfl,
    (invalid_feature_rejected initGeoState 0 (some noGeomFeature)
      ⟨none, none, none⟩ "u" "u" rfl).1,
    (invalid_feature_rejected initGeoState 0 (some noGeomFeature)
      ⟨none, none, none⟩ "u" "u" rfl).2⟩

/-- C6.  A caller-supplied identity matching an existing record routes
`addGeometry` to an update of that record instead of an insert and
returns the same identity — no duplicate-identity error, `totalCount` and
the record count unchanged; with no supplied identity, the freshly drawn
token is used, returned, and a record is stored under it
(`core/GeoManager.js:90-97, 369-372`). -/
theorem addGeometry_identity_routing (st : GeoState) (now : Nat) (f : Feature)
    (opts : AddOptions) (drawn u : String)
    (hval : validateFeature (some f) = true) :
    (∀ r, opts.uuid = some u → lookupGeom st u = some r →
        (addGeometry st now (some f) opts drawn).1 = some u ∧
        (addGeometry st now (some f) opts drawn).2.totalCount = st.totalCount ∧
        (addGeometry st now (some f) opts drawn).2.geometries.length
          = st.geometries.length) ∧
    (opts.uuid = none → lookupGeom st drawn = none →
        (addGeometry st now (some f) opts drawn).1 = some drawn ∧
        (lookupGeom (addGeometry st now (some f) opts drawn).2 drawn).isSome ∧
        (addGeometry st now (some f) opts drawn).2.totalCount
          = st.totalCount + 1) := by
  constructor
  · intro r ho hl
    have hgetD : opts.uuid.getD drawn = u := by rw [ho]; rfl
    rw [addGeometry_existing st now f opts drawn u r hval hgetD hl]
    obtain ⟨h1, h2⟩ := updateGeometry_preserves st now u (some f) opts
    exact ⟨rfl, h1, h2⟩
  · intro ho hl
    have hgetD : opts.uuid.getD drawn = drawn := by rw [ho]; rfl
    obtain ⟨g, t, ty, hg, hgt, hparse, -, -⟩ := validate_elim f hval
    have hsc : (f.geometry.bind (fun ge => ge.gtype)).bind parseGType
        = some ty := by
      rw [hg]
      simp only [Option.some_bind]
      rw [hgt]
      simp only [Option.some_bind]
      exact hparse
    have hlu : lookupGeom st (opts.uuid.getD drawn) = none := by
      rw [hgetD]; exact hl
    rw [addGeometry_fresh_eq st now f opts drawn ty hval hlu hsc]
    refine ⟨by rw [hgetD], ?_, rfl⟩
    apply lookupGeom_isSome
    exact ⟨_, List.mem_append_right _ (List.mem_singleton_self _), hgetD⟩

/-- Witness for C6: on a one-record store, re-adding with the existing
identity `a` updates in place (total unchanged), and adding with no
identity stores a record under the drawn token `b` and grows the total by
one. -/
theorem addGeometry_identity_routing_witness :
    ((addGeometry oneRecordStore 1 (some simplePointFeature)
        ⟨some "a", none, none⟩ "b").1 = some "a" ∧
      (addGeometry oneRecordStore 1 (some simplePointFeature)
        ⟨some "a", none, none⟩ "b").2.totalCount = oneRecordStore.totalCount ∧
      (addGeometry oneRecordStore 1 (some simplePointFeature)
        ⟨some "a", none, none⟩ "b").2.geometries.length
          = oneRecordStore.geometries.length) ∧
    ((addGeometry oneRecordStore 1 (some simplePointFeature)
        ⟨none, none, none⟩ "b").1 = some "b" ∧
      (lookupGeom (addGeometry oneRecordStore 1 (some simplePointFeature)
        ⟨none, none, none⟩ "b").2 "b").isSome ∧
      (addGeometry oneRecordStore 1 (some simplePointFeature)
        ⟨none, none, none⟩ "b").2.totalCount = oneRecordStore.totalCount + 1) :=
  ⟨(addGeometry_identity_routing oneRecordStore 1 simplePointFeature
      ⟨some "a", none, none⟩ "b" "a" rfl).1 storedPointRecord rfl (by decide),
    (addGeometry_identity_routing oneRecordStore 1 simplePointFeature
      ⟨none, none, none⟩ "b" "a" rfl).2 rfl (by decide)⟩

/-- Counterexample to C2: in Scenario A the counts are as stated, but the
box returned by `calculateBounds` is the degenerate box of the Point
alone — the `forEach` of `core/GeoManager.js:613-637` has no branch for
`Circle` (nor `Drawing`), so the Circle contributes nothing, and the box
does not contain the Circle coordinate (-63.9000, -8.7600). -/
theorem calculateBounds_scenario_counterexample :
    scenarioStore.totalCount = 2 ∧
    scenarioStore.countByType .Point = 1 ∧
    scenarioStore.countByType .Circle = 1 ∧
    (calculateBounds scenarioStore).1
      = some { minLat := some (-8.7619), minLng := some (-63.9039),
               maxLat := some (-8.7619), maxLng := some (-63.9039) } ∧
    (calculateBounds scenarioStore).1.map
      (fun b => b.containsPt (-63.9) (-8.76)) = some false := by
  refine ⟨by decide, by decide, by decide, by decide, by decide⟩

/-- Amended C2 (proved): `calculateBounds` iterates a single coordinate
pair for a Point, the full list for a LineString and the outer ring for a
Polygon; `Circle` and `Drawing` records contribute nothing to the box.
In Scenario A, `totalCount` is 2 and both per-kind counters are 1, but
the returned box is the degenerate box of the Point coordinate: it
contains (-63.9039, -8.7619) and not the Circle coordinate
(-63.9000, -8.7600). -/
theorem calculateBounds_point_only :
    (∀ (b : BoundsE) (g : GeometryData),
      (g.gtype = GType.Circle ∨ g.gtype = GType.Drawing) → extendGeom b g = b) ∧
    scenarioStore.totalCount = 2 ∧
    scenarioStore.countByType .Point = 1 ∧
    scenarioStore.countByType .Circle = 1 ∧
    (calculateBounds scenarioStore).1 = some pvPointBox ∧
    pvPointBox.containsPt (-63.9039) (-8.7619) = true ∧
    pvPointBox.containsPt (-63.9) (-8.76) = false := by
  refine ⟨?_, by decide, by decide, by decide, by decide, by decide, by decide⟩
  intro b g hg
  unfold extendGeom
  rcases hg with hg | hg <;> rw [hg]

/-- Witness for the amended C2: the skip property applied at a concrete
Circle record and the empty box. -/
theorem calculateBounds_point_only_witness :
    extendGeom emptyBox
      { uuid := "w", feature := portoVelhoCircle, gtype := .Circle,
        leafletLayer := none, style := [], metadata := [], createdAt := 0,
        updatedAt := 0, properties := [] }
      = emptyBox :=
  calculateBounds_point_only.1 emptyBox
    { uuid := "w", feature := portoVelhoCircle, gtype := .Circle,
      leafletLayer := none, style := [], metadata := [], createdAt := 0,
      updatedAt := 0, properties := [] }
    (Or.inl rfl)

/-- Dispatching never changes the configured capacity. -/
theorem trigger_snd_max (st : EMState) (now : Nat) (name : String) (p : Payload) :
    (trigger st now name p).2.maxHistorySize = st.maxHistorySize := by
  unfold trigger addToHistory
  split
  · rfl
  · simp only

/-- The configured capacity is at least one
(`options.maxHistorySize || 100`). -/
theorem initEM_max_pos (o : Option Nat) : 1 ≤ (initEMState o).maxHistorySize := by
  cases o with
  | none => simp [initEMState]
  | some n =>
    by_cases hn : n = 0
    · simp [initEMState, hn]
    · simp only [initEMState, if_neg hn]
      omega

/-- One dispatch keeps the history within capacity. -/
theorem trigger_len_le (st : EMState) (now : Nat) (name : String) (p : Payload)
    (h : st.eventHistory.length ≤ st.maxHistorySize) :
    (trigger st now name p).2.eventHistory.length ≤ st.maxHistorySize := by
  unfold trigger addToHistory
  split
  · exact h
  · simp only
    split
    · rename_i hlt
      simp only [List.length_tail, List.length_append, List.length_singleton]
      omega
    · rename_i hge
      simp only [List.length_append, List.length_singleton] at hge ⊢
      omega

/-- Capacity is preserved across any sequence of dispatches. -/
theorem triggerCalls_max (calls : List (Nat × String × Payload)) :
    ∀ st : EMState, (triggerCalls st calls).maxHistorySize = st.maxHistorySize := by
  induction calls with
  | nil => intro st; rfl
  | cons c rest ih =>
    intro st
    obtain ⟨now, name, p⟩ := c
    show (triggerCalls (trigger st now name p).2 rest).maxHistorySize = _
    rw [ih, trigger_snd_max]

/-- The history stays within capacity across any sequence of
dispatches. -/
theorem triggerCalls_len_le (calls : List (Nat × String × Payload)) :
    ∀ st : EMState, st.eventHistory.length ≤ st.maxHistorySize →
      (triggerCalls st calls).eventHistory.length
        ≤ (triggerCalls st calls).maxHistorySize := by
  induction calls with
  | nil => intro st h; exact h
  | cons c rest ih =>
    intro st h
    obtain ⟨now, name, p⟩ := c
    show (triggerCalls (trigger st now name p).2 rest).eventHistory.length ≤ _
    apply ih
    rw [trigger_snd_max]
    exact trigger_len_le st now name p h

/-- C8.  Every event dispatched through `trigger` is stamped with its
timestamp and its own name before delivery and before being appended to
the history; the history never holds more than `maxHistorySize` entries
(default 100); and when capacity is exceeded the evicted entry is the
oldest one (`managers/EventManager.js:133-150, 453-463`). -/
theorem trigger_stamps_and_bounds (opts : Option Nat)
    (calls : List (Nat × String × Payload)) (name : String) (now : Nat)
    (p : Payload) (hname : ¬ name = "") :
    (initEMState none).maxHistorySize = 100 ∧
    (trigger (emAfter opts calls) now name p).1
      = some { payload := p, timestamp := now, eventName := name } ∧
    (trigger (emAfter opts calls) now name p).2.eventHistory.getLast?
      = some { eventName := name, timestamp := now,
               data := { payload := p, timestamp := now, eventName := name } } ∧
    (emAfter opts calls).eventHistory.length
      ≤ (emAfter opts calls).maxHistorySize ∧
    (trigger (emAfter opts calls) now name p).2.eventHistory.length
      ≤ (emAfter opts calls).maxHistorySize ∧
    ((emAfter opts calls).maxHistorySize
        ≤ (emAfter opts calls).eventHistory.length →
      (trigger (emAfter opts calls) now name p).2.eventHistory
        = (emAfter opts calls).eventHistory.tail
            ++ [{ eventName := name, timestamp := now,
                  data := { payload := p, timestamp := now,
                            eventName := name } }]) := by
  have hmax : (emAfter opts calls).maxHistorySize = (initEMState opts).maxHistorySize :=
    triggerCalls_max calls (initEMState opts)
  have hpos : 1 ≤ (emAfter opts calls).maxHistorySize := by
    rw [hmax]; exact initEM_max_pos opts
  have hlen : (emAfter opts calls).eventHistory.length
      ≤ (emAfter opts calls).maxHistorySize :=
    triggerCalls_len_le calls (initEMState opts) (by simp [initEMState])
  refine ⟨rfl, ?_, ?_, hlen, ?_, ?_⟩
  · unfold trigger
    rw [if_neg hname]
  · unfold trigger addToHistory
    rw [if_neg hname]
    simp only
    split
    · rename_i hlt
      cases hh : (emAfter opts calls).eventHistory with
      | nil =>
        rw [hh] at hlt
        simp at hlt
        omega
      | cons e rest =>
        simp only [List.cons_append, List.tail_cons]
        exact List.getLast?_concat _
    · exact List.getLast?_concat _
  · exact trigger_len_le _ now name p hlen
  · intro hfull
    unfold trigger addToHistory
    rw [if_neg hname]
    simp only
    rw [if_pos (by simp only [List.length_append, List.length_singleton]; omega)]
    cases hh : (emAfter opts calls).eventHistory with
    | nil =>
      rw [hh] at hfull
      simp at hfull
      omega
    | cons e rest =>
      simp

/-- Witness for C8: a single dispatch on a fresh default bus is stamped
and lands as the last (and only) history entry. -/
theorem trigger_stamps_and_bounds_witness :
    (initEMState none).maxHistorySize = 100 ∧
    (trigger (emAfter none []) 5 "bera:geometryAdded" []).1
      = some { payload := [], timestamp := 5, eventName := "bera:geometryAdded" } ∧
    (trigger (emAfter none []) 5 "bera:geometryAdded" []).2.eventHistory.getLast?
      = some { eventName := "bera:geometryAdded", timestamp := 5,
               data := { payload := [], timestamp := 5,
                         eventName := "bera:geometryAdded" } } := by
  have h := trigger_stamps_and_bounds none [] "bera:geometryAdded" 5 []
    (by decide)
  exact ⟨h.1, h.2.1, h.2.2.1⟩

/-- History produced by a sequence dispatch when the history has room:
every entry is appended in array order, none is evicted. -/
theorem triggerSeqFrom_history (clock : Nat → Nat)
    (events : List (String × Payload)) :
    ∀ (i : Nat) (st : EMState),
      st.eventHistory.length + events.length ≤ st.maxHistorySize →
      (∀ e ∈ events, ¬ e.1 = "") →
      (triggerSeqFrom clock i st events).eventHistory
        = st.eventHistory ++ stampSeq clock i events := by
  induction events with
  | nil =>
    intro i st _ _
    simp [triggerSeqFrom, stampSeq]
  | cons ev rest ih =>
    intro i st hroom hnames
    obtain ⟨name, p⟩ := ev
    have hname : ¬ name = "" := hnames (name, p) (List.mem_cons_self _ _)
    simp only [List.length_cons] at hroom
    have hstep : (trigger st (clock i) name p).2.eventHistory
        = st.eventHistory ++
          [{ eventName := name, timestamp := clock i,
             data := { payload := p, timestamp := clock i,
                       eventName := name } }] := by
      unfold trigger addToHistory
      rw [if_neg hname]
      simp only
      rw [if_neg (by
        simp only [List.length_append, List.length_singleton]
        omega)]
    show (triggerSeqFrom clock (i + 1) (trigger st (clock i) name p).2
        rest).eventHistory = _
    rw [ih (i + 1) _ (by
        rw [trigger_snd_max, hstep]
        simp only [List.length_append, List.length_singleton]
        omega)
      (fun e he => hnames e (List.mem_cons_of_mem _ he)), hstep]
    rw [List.append_assoc]
    rfl

/-- Timestamps inside a sequence stamp come from clock readings at or
after the start index. -/
theorem stampSeq_timestamp_mem (clock : Nat → Nat)
    (events : List (String × Payload)) :
    ∀ (i : Nat) (r : EventRecord), r ∈ stampSeq clock i events →
      ∃ k, k < events.length ∧ r.timestamp = clock (i + k) := by
  induction events with
  | nil => intro i r hr; cases hr
  | cons ev rest ih =>
    intro i r hr
    obtain ⟨name, p⟩ := ev
    rcases List.mem_cons.mp hr with rfl | hr2
    · exact ⟨0, by simp, by simp⟩
    · obtain ⟨k, hk, he⟩ := ih (i + 1) r hr2
      exact ⟨k + 1, by simp only [List.length_cons]; omega, by rw [he]; ring_nf⟩

/-- With a monotone clock, the records of a sequence stamp carry
non-decreasing timestamps. -/
theorem stampSeq_pairwise (clock : Nat → Nat)
    (hmono : ∀ i j, i ≤ j → clock i ≤ clock j)
    (events : List (String × Payload)) :
    ∀ i, List.Pairwise (fun a b => a.timestamp ≤ b.timestamp)
      (stampSeq clock i events) := by
  induction events with
  | nil => intro i; exact List.Pairwise.nil
  | cons ev rest ih =>
    intro i
    obtain ⟨name, p⟩ := ev
    refine List.Pairwise.cons ?_ (ih (i + 1))
    intro r hr
    obtain ⟨k, -, hk⟩ := stampSeq_timestamp_mem clock rest (i + 1) r hr
    show clock i ≤ r.timestamp
    rw [hk]
    exact hmono i (i + 1 + k) (by omega)

/-- C9.  `triggerSequence` dispatches its entries strictly in array order
and returns (resolves) only after the last entry has been dispatched: the
state at resolution extends the history by exactly the stamped entries in
submission order, and with a monotone clock (physical time, also with a
0 ms delay) their timestamps are non-decreasing
(`managers/EventManager.js:158-180`). -/
theorem triggerSequence_in_order (st : EMState) (clock : Nat → Nat)
    (events : List (String × Payload))
    (hroom : st.eventHistory.length + events.length ≤ st.maxHistorySize)
    (hnames : ∀ e ∈ events, ¬ e.1 = "")
    (hmono : ∀ i j, i ≤ j → clock i ≤ clock j) :
    (triggerSequence st clock events).eventHistory
      = st.eventHistory ++ stampSeq clock 0 events ∧
    List.Pairwise (fun a b => a.timestamp ≤ b.timestamp)
      (stampSeq clock 0 events) :=
  ⟨triggerSeqFrom_history clock events 0 st hroom hnames,
    stampSeq_pairwise clock hmono events 0⟩

/-- Witness for C9: three sequenced events with the identity clock on a
fresh default bus appear in submission order with non-decreasing
timestamps. -/
theorem triggerSequence_in_order_witness :
    (triggerSequence (initEMState none) (fun n => n)
        [("bera:a", ([] : Payload)), ("bera:b", []), ("bera:c", [])]).eventHistory
      = (initEMState none).eventHistory ++ stampSeq (fun n => n) 0
          [("bera:a", ([] : Payload)), ("bera:b", []), ("bera:c", [])] ∧
    List.Pairwise (fun a b => a.timestamp ≤ b.timestamp)
      (stampSeq (fun n => n) 0
        [("bera:a", ([] : Payload)), ("bera:b", []), ("bera:c", [])]) :=
  triggerSequence_in_order (initEMState none) (fun n => n)
    [("bera:a", ([] : Payload)), ("bera:b", []), ("bera:c", [])]
    (by simp [initEMState]) (by decide) (fun i j h => h)

/-- Zero degrees is zero radians. -/
theorem degToRad_zero : degToRad 0 = 0 := by
  simp [degToRad]

/-- Ninety degrees is a right angle. -/
theorem degToRad_ninety : degToRad 90 = Real.pi / 2 := by
  rw [degToRad]
  push_cast
  ring

/-- Counterexample to C4: on the two-vertex list with latitudes 0 and a
90° longitude step, the area computed by the Polygon renderer
(`renderers/PolygonRenderer.js:205-224`) is 0, while the mid-latitude
formula asserted by the spec gives `π/4·R² > 0`: the cited renderers do
not compute `cos((lat1+lat2)/2)·Δlng`. -/
theorem area_formula_counterexample :
    PolygonRenderer.calculateArea [((0 : ℚ), (0 : ℚ)), ((0 : ℚ), (90 : ℚ))]
      ≠ specAreaMidLatitude [((0 : ℚ), (0 : ℚ)), ((0 : ℚ), (90 : ℚ))] := by
  have hL : PolygonRenderer.calculateArea
      [((0 : ℚ), (0 : ℚ)), ((0 : ℚ), (90 : ℚ))] = 0 := by
    simp [PolygonRenderer.calculateArea, consecPairs]
  have hR : 0 < specAreaMidLatitude
      [((0 : ℚ), (0 : ℚ)), ((0 : ℚ), (90 : ℚ))] := by
    simp only [specAreaMidLatitude, consecPairs, List.tail_cons,
      List.zip_cons_cons, List.zip_nil_right, List.map_cons, List.map_nil,
      List.sum_cons, List.sum_nil, degToRad_zero]
    have h2 : ((0 : ℝ) + 0) / 2 = 0 := by norm_num
    rw [h2, Real.cos_zero, add_zero, one_mul]
    have h90 : degToRad (90 - 0) = Real.pi / 2 := by
      rw [show ((90 : ℚ) - 0) = 90 by norm_num, degToRad_ninety]
    rw [h90, abs_of_pos (by positivity)]
    positivity
  intro hc
  rw [hL] at hc
  rw [← hc] at hR
  exact lt_irrefl 0 hR

/-- Amended C4 (proved): the areas computed by the Polygon renderer and
the module Drawing renderer agree, and equal
`|Σ sin(lat_i − lat_{i+1}) · sin(Δlng_i)| · R² / 2` over consecutive
vertex pairs (radians, R = 6,371,000 m) — a product-of-sines formula, not
the spec's mid-latitude `cos((lat_i+lat_{i+1})/2) · Δlng_i` form. -/
theorem calculateArea_sin_formula (l : List (ℚ × ℚ)) :
    PolygonRenderer.calculateArea l
      = |((consecPairs l).map (fun pq =>
          Real.sin (degToRad pq.1.1 - degToRad pq.2.1) *
            Real.sin (degToRad (pq.2.2 - pq.1.2)))).sum * 6371000 * 6371000| / 2 ∧
    DrawingRenderer.calculateArea l = PolygonRenderer.calculateArea l := by
  refine ⟨?_, rfl⟩
  simp only [PolygonRenderer.calculateArea]
  have hmap : (consecPairs l).map (fun pq =>
      Real.sin (degToRad pq.1.1) * Real.cos (degToRad pq.2.1) *
          Real.sin (degToRad (pq.2.2 - pq.1.2)) -
        Real.sin (degToRad pq.2.1) * Real.cos (degToRad pq.1.1) *
          Real.sin (degToRad (pq.2.2 - pq.1.2)))
      = (consecPairs l).map (fun pq =>
          Real.sin (degToRad pq.1.1 - degToRad pq.2.1) *
            Real.sin (degToRad (pq.2.2 - pq.1.2))) := by
    apply List.map_congr_left
    intro pq _
    rw [Real.sin_sub]
    ring
  rw [hmap]

/-- The swapped (lat, lng) form of `closedRingCoords`. -/
theorem closedRing_swap :
    closedRingCoords.map (fun c => (c.2, c.1))
      = [((0 : ℚ), (0 : ℚ)), (90, 0), (0, 90), (0, 0)] := by
  decide

/-- Area of the closed test ring under the renderers' formula: exactly
`R²/2`. -/
theorem closedRing_area :
    DrawingRenderer.calculateArea [((0 : ℚ), (0 : ℚ)), (90, 0), (0, 90), (0, 0)]
      = 6371000 * 6371000 / 2 := by
  simp only [DrawingRenderer.calculateArea, consecPairs, List.tail_cons,
    List.zip_cons_cons, List.zip_nil_right, List.map_cons, List.map_nil,
    List.sum_cons, List.sum_nil]
  norm_num [degToRad_zero, degToRad_ninety, Real.sin_zero, Real.cos_zero,
    Real.sin_pi_div_two, Real.cos_pi_div_two]

/-- The swapped (lat, lng) form of `openRingCoords`. -/
theorem openRing_swap :
    openRingCoords.map (fun c => (c.2, c.1))
      = [((0 : ℚ), (0 : ℚ)), (90, 0), (0, 90), (0, 1/100)] := by
  decide

/-- Metadata equation for the module renderer on the open ring. -/
theorem renderMetadata_open_eq :
    DrawingRenderer.renderMetadata 0.00001 openRingCoords
      = { isClosed := false,
          length := DrawingRenderer.calculateLength
            [((0 : ℚ), (0 : ℚ)), (90, 0), (0, 90), (0, 1/100)],
          area := none, typeTag := "polyline" } := by
  unfold DrawingRenderer.renderMetadata
  rw [openRing_swap]
  simp only []
  rw [show DrawingRenderer.isClosedLine 0.00001
    [((0 : ℚ), (0 : ℚ)), (90, 0), (0, 90), (0, 1/100)] = false from by decide]
  rfl

/-- Metadata equation for the module renderer on the closed ring. -/
theorem renderMetadata_closed_eq :
    DrawingRenderer.renderMetadata 0.00001 closedRingCoords
      = { isClosed := true,
          length := DrawingRenderer.calculateLength
            [((0 : ℚ), (0 : ℚ)), (90, 0), (0, 90), (0, 0)],
          area := some (6371000 * 6371000 / 2), typeTag := "polygon" } := by
  unfold DrawingRenderer.renderMetadata
  rw [closedRing_swap]
  simp only []
  rw [show DrawingRenderer.isClosedLine 0.00001
    [((0 : ℚ), (0 : ℚ)), (90, 0), (0, 90), (0, 0)] = true from by decide]
  rw [closedRing_area]
  rfl

/-- Metadata equation for the UMD renderer on the open ring. -/
theorem renderMetadataUMD_open_eq :
    DrawingRendererUMD.renderMetadata 0.00001 openRingCoords
      = some { isClosed := false,
               length := DrawingRendererUMD.calculateLength
                 [((0 : ℚ), (0 : ℚ)), (90, 0), (0, 90), (0, 1/100)],
               area := 0, vertices := 4, typeTag := "open" } := by
  unfold DrawingRendererUMD.renderMetadata
  rw [openRing_swap]
  simp only []
  rw [show DrawingRendererUMD.isClosedLine 0.00001
    [((0 : ℚ), (0 : ℚ)), (90, 0), (0, 90), (0, 1/100)] = false from by decide]
  rfl

/-- Counterexample to C3: rendering the open variant of the ring through
the module `DrawingRenderer` (`managers/GeoManager.js:1243-1315`) yields
metadata with `area = null` — not `area = 0` as the claim states. -/
theorem drawing_open_area_counterexample :
    (DrawingRenderer.renderMetadata 0.00001 openRingCoords).isClosed = false ∧
    (DrawingRenderer.renderMetadata 0.00001 openRingCoords).area = none ∧
    ¬ (DrawingRenderer.renderMetadata 0.00001 openRingCoords).area = some 0 := by
  rw [renderMetadata_open_eq]
  exact ⟨rfl, rfl, by simp⟩

/-- Amended C3 (proved): rendering the closed ring yields metadata with
`isClosed = true`, the polygon classification and the non-zero area
`R²/2`; the endpoints-moved-0.01° variant yields `isClosed = false` with
only a length metric: the module Drawing renderer reports `area = null`
(`managers/GeoManager.js:1303`), while the UMD variant reports `area = 0`
and the tag `open` (`managers/GeoManager.js:1754-1756`). -/
theorem drawing_render_classification :
    (DrawingRenderer.renderMetadata 0.00001 closedRingCoords).isClosed = true ∧
    (DrawingRenderer.renderMetadata 0.00001 closedRingCoords).typeTag
      = "polygon" ∧
    (DrawingRenderer.renderMetadata 0.00001 closedRingCoords).area
      = some (6371000 * 6371000 / 2) ∧
    ((6371000 * 6371000 / 2 : ℝ) ≠ 0) ∧
    (DrawingRenderer.renderMetadata 0.00001 openRingCoords).isClosed = false ∧
    (DrawingRenderer.renderMetadata 0.00001 openRingCoords).typeTag
      = "polyline" ∧
    (DrawingRenderer.renderMetadata 0.00001 openRingCoords).area = none ∧
    (DrawingRendererUMD.renderMetadata 0.00001 openRingCoords).map
      (fun m => (m.isClosed, m.area, m.typeTag)) = some (false, 0, "open") := by
  rw [renderMetadata_open_eq, renderMetadata_closed_eq, renderMetadataUMD_open_eq]
  exact ⟨rfl, rfl, rfl, by positivity, rfl, rfl, rfl, rfl⟩

/-- Counterexample to C5: the LineString renderer's ring-closure test
(`renderers/LineRenderer.js:557-567`) classifies a two-point list with
coinciding endpoints as closed — its guard is `length < 2`, so a list
with fewer than three points can be closed. -/
theorem lineRenderer_two_point_closed :
    LineRenderer.isClosedLine [((0 : ℚ), (0 : ℚ)), (0, 0)] = true ∧
    ([((0 : ℚ), (0 : ℚ)), (0, 0)]).length < 3 := by
  exact ⟨by decide, by decide⟩

/-- The Drawing renderers' closure test on an explicit four-point list
reduces to the two endpoint comparisons. -/
theorem isClosedLine_four (thr : ℚ) (a b c e : ℚ × ℚ) :
    DrawingRenderer.isClosedLine thr [a, b, c, e]
      = (decide (|a.1 - e.1| < thr) && decide (|a.2 - e.2| < thr)) ∧
    LineRenderer.isClosedLine [a, b, c, e]
      = (decide (|a.1 - e.1| < 0.00001) && decide (|a.2 - e.2| < 0.00001)) ∧
    DrawingRendererUMD.isClosedLine thr [a, b, c, e]
      = (decide (|a.1 - e.1| < thr) && decide (|a.2 - e.2| < thr)) := by
  refine ⟨?_, ?_, ?_⟩ <;> rfl

/-- Amended C5 (proved): the Drawing renderers' ring-closure test (module
and UMD variants) returns true exactly when the list has at least three
points and both axis differences between first and last vertex are below
the tolerance (default 1×10⁻⁵°); a list under three points is never
closed there.  The LineString renderer's variant
(`renderers/LineRenderer.js:557`) instead requires only two points, so a
two-point list with near-coinciding endpoints is classified closed.  For
every four-point ring, endpoints differing by less than 1×10⁻⁵° on both
axes give closed, and by at least 1×10⁻⁴° on either axis give open, under
all three variants. -/
theorem ring_closure_characterization :
    (∀ (f : ℚ × ℚ) (rest : List (ℚ × ℚ)),
      DrawingRenderer.isClosedLine 0.00001 (f :: rest) = true ↔
        (3 ≤ (f :: rest).length ∧
          |f.1 - ((f :: rest).getLast (List.cons_ne_nil f rest)).1| < 0.00001 ∧
          |f.2 - ((f :: rest).getLast (List.cons_ne_nil f rest)).2| < 0.00001)) ∧
    (∀ latLngs : List (ℚ × ℚ), latLngs.length < 3 →
      DrawingRenderer.isClosedLine 0.00001 latLngs = false ∧
      DrawingRendererUMD.isClosedLine 0.00001 latLngs = false) ∧
    (∀ (f : ℚ × ℚ) (rest : List (ℚ × ℚ)),
      LineRenderer.isClosedLine (f :: rest) = true ↔
        (2 ≤ (f :: rest).length ∧
          |f.1 - ((f :: rest).getLast (List.cons_ne_nil f rest)).1| < 0.00001 ∧
          |f.2 - ((f :: rest).getLast (List.cons_ne_nil f rest)).2| < 0.00001)) ∧
    (∀ a b c e : ℚ × ℚ,
      (|a.1 - e.1| < 0.00001 → |a.2 - e.2| < 0.00001 →
        DrawingRenderer.isClosedLine 0.00001 [a, b, c, e] = true ∧
        DrawingRendererUMD.isClosedLine 0.00001 [a, b, c, e] = true ∧
        LineRenderer.isClosedLine [a, b, c, e] = true) ∧
      ((1/10000 ≤ |a.1 - e.1| ∨ 1/10000 ≤ |a.2 - e.2|) →
        DrawingRenderer.isClosedLine 0.00001 [a, b, c, e] = false ∧
        DrawingRendererUMD.isClosedLine 0.00001 [a, b, c, e] = false ∧
        LineRenderer.isClosedLine [a, b, c, e] = false)) := by
  refine ⟨?_, ?_, ?_, ?_⟩
  · intro f rest
    show (if (f :: rest).length < 3 then false else _) = true ↔ _
    by_cases hlen : (f :: rest).length < 3
    · rw [if_pos hlen]
      simp only [Bool.false_eq_true, false_iff]
      intro hc
      omega
    · rw [if_neg hlen]
      simp only [Bool.and_eq_true, decide_eq_true_eq]
      constructor
      · rintro ⟨h1, h2⟩
        exact ⟨by omega, h1, h2⟩
      · rintro ⟨-, h1, h2⟩
        exact ⟨h1, h2⟩
  · intro latLngs hlen
    cases latLngs with
    | nil => exact ⟨rfl, rfl⟩
    | cons f rest =>
      constructor
      · show (if (f :: rest).length < 3 then false else _) = false
        rw [if_pos hlen]
      · show (if (f :: rest).length < 3 then false else _) = false
        rw [if_pos hlen]
  · intro f rest
    show (if (f :: rest).length < 2 then false else _) = true ↔ _
    by_cases hlen : (f :: rest).length < 2
    · rw [if_pos hlen]
      simp only [Bool.false_eq_true, false_iff]
      intro hc
      omega
    · rw [if_neg hlen]
      simp only [Bool.and_eq_true, decide_eq_true_eq]
      constructor
      · rintro ⟨h1, h2⟩
        exact ⟨by omega, h1, h2⟩
      · rintro ⟨-, h1, h2⟩
        exact ⟨h1, h2⟩
  · intro a b c e
    obtain ⟨hD, hL, hU⟩ := isClosedLine_four 0.00001 a b c e
    constructor
    · intro h1 h2
      rw [hD, hL, hU]
      simp [h1, h2]
    · intro hor
      have h1 : ¬ (|a.1 - e.1| < 0.00001) ∨ ¬ (|a.2 - e.2| < 0.00001) := by
        rcases hor with h | h
        · left
          intro hc
          have : (0.00001 : ℚ) < 1/10000 := by norm_num
          linarith
        · right
          intro hc
          have : (0.00001 : ℚ) < 1/10000 := by norm_num
          linarith
      rw [hD, hL, hU]
      rcases h1 with h | h <;> simp [h]

/-- Witness for the amended C5: a concrete four-point ring with
coinciding endpoints is closed under all three variants, and a concrete
two-point list shows the LineString renderer's two-point minimum. -/
theorem ring_closure_characterization_witness :
    (DrawingRenderer.isClosedLine 0.00001
        [((0 : ℚ), (0 : ℚ)), (1, 1), (2, 2), (0, 0)] = true ∧
      DrawingRendererUMD.isClosedLine 0.00001
        [((0 : ℚ), (0 : ℚ)), (1, 1), (2, 2), (0, 0)] = true ∧
      LineRenderer.isClosedLine
        [((0 : ℚ), (0 : ℚ)), (1, 1), (2, 2), (0, 0)] = true) ∧
    LineRenderer.isClosedLine [((5 : ℚ), (5 : ℚ)), (5, 5)] = true :=
  ⟨(ring_closure_characterization.2.2.2 (0, 0) (1, 1) (2, 2) (0, 0)).1
      (by norm_num) (by norm_num),
    (ring_closure_characterization.2.2.1 (5, 5) [(5, 5)]).mpr
      (by norm_num)⟩

/-- A validated input always yields an identity from `addGeometry`. -/
theorem addGeometry_returns_some (st : GeoState) (now : Nat)
    (input : Option Feature) (opts : AddOptions) (drawn : String)
    (hv : validateFeature input = true) :
    ∃ u, (addGeometry st now input opts drawn).1 = some u := by
  cases input with
  | none => simp [validateFeature] at hv
  | some f =>
    obtain ⟨g, t, ty, hg, hgt, hparse, -, -⟩ := validate_elim f hv
    have hsc : (f.geometry.bind (fun ge => ge.gtype)).bind parseGType
        = some ty := by
      rw [hg]
      simp only [Option.some_bind]
      rw [hgt]
      simp only [Option.some_bind]
      exact hparse
    cases hl : lookupGeom st (opts.uuid.getD drawn) with
    | some r =>
      exact ⟨_, by
        rw [addGeometry_existing st now f opts drawn _ r hv rfl hl]⟩
    | none =>
      exact ⟨_, by
        rw [addGeometry_fresh_eq st now f opts drawn ty hv hl hsc]⟩

/-- The identity returned by `addGeometry` is `null` exactly when
validation rejected the feature. -/
theorem addGeometry_isNone (st : GeoState) (now : Nat)
    (input : Option Feature) (opts : AddOptions) (drawn : String) :
    (addGeometry st now input opts drawn).1.isNone
      = ! validateFeature input := by
  cases hv : validateFeature input with
  | false =>
    have : addGeometry st now input opts drawn = (none, st) := by
      unfold addGeometry
      rw [if_pos hv]
    rw [this]
    rfl
  | true =>
    obtain ⟨u, hu⟩ := addGeometry_returns_some st now input opts drawn hv
    rw [hu]
    rfl

/-- When every normalized feature has a geometry object, the loop
completes and collects one entry per feature, `null` exactly for the
rejected ones. -/
theorem addGeometriesLoop_ok (now : Nat) (drawn : Nat → String)
    (feats : List (Option Feature)) :
    ∀ (i : Nat) (st : GeoState),
      (∀ f ∈ feats, (Option.bind f Feature.geometry).isSome = true) →
      (addGeometriesLoop now drawn i st feats).1 = true ∧
      (addGeometriesLoop now drawn i st feats).2.1.map Option.isNone
        = feats.map (fun f => ! validateFeature f) := by
  induction feats with
  | nil => exact fun i st _ => ⟨rfl, rfl⟩
  | cons f rest ih =>
    intro i st h
    have hf := h f (List.mem_cons_self _ _)
    cases hb : Option.bind f Feature.geometry with
    | none => rw [hb] at hf; simp at hf
    | some g =>
      have hrest := ih (i + 1)
        (addGeometry st now f ⟨none, none, none⟩ (drawn i)).2
        (fun f2 hf2 => h f2 (List.mem_cons_of_mem _ hf2))
      have hstep : addGeometriesLoop now drawn i st (f :: rest)
        = (match Option.bind f Feature.geometry with
          | none => (false, [],
              (addGeometry st now f ⟨none, none, none⟩ (drawn i)).2)
          | some _ =>
            ((addGeometriesLoop now drawn (i + 1)
                (addGeometry st now f ⟨none, none, none⟩ (drawn i)).2 rest).1,
              (addGeometry st now f ⟨none, none, none⟩ (drawn i)).1 ::
                (addGeometriesLoop now drawn (i + 1)
                  (addGeometry st now f ⟨none, none, none⟩ (drawn i)).2
                  rest).2.1,
              (addGeometriesLoop now drawn (i + 1)
                (addGeometry st now f ⟨none, none, none⟩ (drawn i)).2
                rest).2.2)) := rfl
      rw [hstep, hb]
      refine ⟨hrest.1, ?_⟩
      show (addGeometry st now f ⟨none, none, none⟩ (drawn i)).1.isNone ::
          (addGeometriesLoop now drawn (i + 1)
            (addGeometry st now f ⟨none, none, none⟩ (drawn i)).2
            rest).2.1.map Option.isNone
        = (! validateFeature f) :: rest.map (fun f2 => ! validateFeature f2)
      rw [addGeometry_isNone, hrest.2]

/-- C10.  For every input accepted by `BeraMap.addGeometries` (each
normalized feature carries a geometry object, so no access throws, and
the list is non-empty), the returned identity list has exactly one entry
per normalized feature — `null` exactly for the features the store
rejected — and the single aggregated `bera:geometryAdded` event carries
that list with `count` equal to the number of normalized features,
rejected ones included (`core/BeraMap.js:107-147`). -/
theorem addGeometries_entry_per_feature (st : GeoState) (now : Nat)
    (geojson : GeoJson) (drawn : Nat → String)
    (hng : ∀ f ∈ normalizeFeatures geojson,
      (Option.bind f Feature.geometry).isSome = true)
    (hne : ¬ (normalizeFeatures geojson).length = 0) :
    (addGeometries st now geojson drawn).1.length
      = (normalizeFeatures geojson).length ∧
    (addGeometries st now geojson drawn).1.map Option.isNone
      = (normalizeFeatures geojson).map (fun f => ! validateFeature f) ∧
    (addGeometries st now geojson drawn).2.2
      = some ((addGeometries st now geojson drawn).1,
              (normalizeFeatures geojson).length) := by
  obtain ⟨hok, hmap⟩ :=
    addGeometriesLoop_ok now drawn (normalizeFeatures geojson) 0 st hng
  rcases hlp : addGeometriesLoop now drawn 0 st (normalizeFeatures geojson)
    with ⟨ok, uuids, st2⟩
  rw [hlp] at hok hmap
  simp only at hok hmap
  subst hok
  have heq : addGeometries st now geojson drawn
      = (uuids, st2, some (uuids, uuids.length)) := by
    unfold addGeometries
    simp only []
    rw [if_neg hne, hlp]
  rw [heq]
  have hlen : uuids.length = (normalizeFeatures geojson).length := by
    have h2 := congrArg List.length hmap
    simpa using h2
  exact ⟨hlen, hmap, by rw [hlen]⟩

/-- Witness for C10: a two-feature collection with one valid Point and
one unrecognized-kind feature yields a two-entry identity list with a
`null` second entry, and the aggregated event counts both. -/
theorem addGeometries_entry_per_feature_witness :
    (addGeometries initGeoState 0
        (.featureCollection (some [some simplePointFeature, some badTypeFeature]))
        (fun _ => "w")).1.length = 2 ∧
    (addGeometries initGeoState 0
        (.featureCollection (some [some simplePointFeature, some badTypeFeature]))
        (fun _ => "w")).1.map Option.isNone = [false, true] ∧
    (addGeometries initGeoState 0
        (.featureCollection (some [some simplePointFeature, some badTypeFeature]))
        (fun _ => "w")).2.2
      = some ((addGeometries initGeoState 0
          (.featureCollection (some [some simplePointFeature, some badTypeFeature]))
          (fun _ => "w")).1, 2) := by
  have h := addGeometries_entry_per_feature initGeoState 0
    (.featureCollection (some [some simplePointFeature, some badTypeFeature]))
    (fun _ => "w") (by decide) (by decide)
  exact ⟨h.1, by rw [h.2.1]; decide, h.2.2⟩

end Beratech
